import Mathlib

/-!
Shallow embedding of the Monopoly Deal server rules engine (`src/server.js`)
and its shared rules module (`src/utils/gameLogic.ts`).

Modelling conventions:
* JS arrays become Lean lists; in-place mutation becomes explicit state passing.
* JS objects used as string-keyed maps (property groups, turn effects) become
  association lists, preserving the source's insertion-order iteration.
* `undefined` optional fields become `Option`; the JS quirk that an
  `undefined` object key is coerced to the string key `"undefined"` is kept.
* The random shuffle is an explicit function parameter `sh`; the timer wiring,
  socket plumbing and the narrative `lastEvent` string are presentation-only
  and are not part of the state model.
* Card values and money amounts are natural numbers.
-/

namespace MD

/-- Card record, after `src/utils/gameLogic.ts` (`Card`) and the card objects
used by `src/server.js`.  `colors`/`rentColors` absent is modelled as `[]`. -/
structure Card where
  id : String
  name : String
  category : String
  value : Nat
  colors : List String := []
  rentColors : List String := []
  actionType : Option String := none
  assignedColor : Option String := none
deriving Repr, DecidableEq

/-- Color-keyed property groups (`player.properties`), kept as an ordered
association list to mirror JS object key order. -/
abbrev Properties := List (String × List Card)

/-- Player record, after `createRoom` / `room:join` in `src/server.js`. -/
structure Player where
  id : String
  name : String
  hand : List Card
  bank : List Card
  properties : Properties
deriving Repr, DecidableEq

/-- `room.pendingTurnDraw` entry. -/
structure PendingTurnDraw where
  playerId : String
  count : Nat
deriving Repr, DecidableEq

/-- The reaction payload built by `playCard` and consumed by
`applyResolvedAction`.  All optional JS fields are `Option`s. -/
structure ReactionPayload where
  type : String
  actorId : String
  targetPlayerId : Option String := none
  targetPlayerIds : List String := []
  amount : Option Nat := none
  rentColor : Option String := none
  targetCardId : Option String := none
  actorCardId : Option String := none
  setColor : Option String := none
deriving Repr, DecidableEq

/-- `room.pendingReaction` (the JS timer handle and the display-only
`expiresAt` timestamp are not part of the state model). -/
structure PendingReaction where
  id : String
  sourcePlayerId : String
  targetPlayerIds : List String
  actionType : String
  payload : ReactionPayload
deriving Repr, DecidableEq

/-- One entry of the pending-payment queue. -/
structure PaymentEntry where
  payerId : String
  amount : Nat
  paid : Option Nat := none
deriving Repr, DecidableEq

/-- `room.pendingPayment`. -/
structure PendingPayment where
  id : String
  sourcePlayerId : String
  receiverPlayerId : String
  actionType : String
  reason : String
  queue : List PaymentEntry
  currentIndex : Nat
deriving Repr, DecidableEq

/-- `room.turnEffects[playerId]`. -/
structure TurnEffects where
  rentMultiplier : Nat
deriving Repr, DecidableEq

/-- Room state, after `createRoom` in `src/server.js` (minus the
presentation-only `lastEvent` narration string). -/
structure Room where
  id : String
  hostId : String
  players : List Player
  started : Bool
  deck : List Card
  discard : List Card
  currentPlayerIndex : Nat
  cardsPlayedThisTurn : Nat
  pendingTurnDraw : Option PendingTurnDraw := none
  pendingReaction : Option PendingReaction := none
  pendingPayment : Option PendingPayment := none
  turnEffects : List (String × TurnEffects) := []
  winnerId : Option String := none
deriving Repr, DecidableEq

/-- `SET_REQUIREMENTS` table from `src/server.js`. -/
def SET_REQUIREMENTS : List (String × Nat) :=
  [("brown", 2), ("light_blue", 3), ("pink", 3), ("orange", 3), ("red", 3),
   ("yellow", 3), ("green", 3), ("blue", 2), ("railroad", 4), ("utility", 2)]

/-- `RENT_TABLE` from `src/server.js`. -/
def RENT_TABLE : List (String × List Nat) :=
  [("brown", [1, 2]), ("light_blue", [1, 2, 3]), ("pink", [1, 2, 4]),
   ("orange", [1, 3, 5]), ("red", [2, 3, 6]), ("yellow", [2, 4, 6]),
   ("green", [2, 4, 7]), ("blue", [3, 8]), ("railroad", [1, 2, 3, 4]),
   ("utility", [1, 2])]

/-- `PROPERTY_COLORS = Object.keys(SET_REQUIREMENTS)`. -/
def PROPERTY_COLORS : List String := SET_REQUIREMENTS.map Prod.fst

/-- JS `Number.MAX_SAFE_INTEGER`, the default set size for unknown colors. -/
def MAX_SAFE_INTEGER : Nat := 2 ^ 53 - 1

/-- `getSetSize` from `src/server.js`. -/
def getSetSize (color : String) : Nat :=
  (SET_REQUIREMENTS.lookup color).getD MAX_SAFE_INTEGER

/-- `isFullSet` from `src/server.js`. -/
def isFullSet (cards : List Card) (color : String) : Bool :=
  getSetSize color ≤ cards.length

/-- `fullSetColors` from `src/server.js`: colors whose group is a full set,
in property-entry order. -/
def fullSetColors (properties : Properties) : List String :=
  (properties.filter fun e => isFullSet e.2 e.1).map Prod.fst

/-- `hasWon` from `src/server.js`: at least 3 distinct full-set colors
(`new Set(...).size` is modelled with `List.dedup`). -/
def hasWon (player : Player) : Bool :=
  3 ≤ (fullSetColors player.properties).dedup.length

/-- `tableValue` from `src/server.js`: bank total plus all property values. -/
def tableValue (player : Player) : Nat :=
  (player.bank.map Card.value).sum +
    ((player.properties.map Prod.snd).flatten.map Card.value).sum

/-- `tableCards` from `src/server.js`, reduced to the card list (the zone
annotation is never consulted by the payment logic): the bank followed by
every property group in entry order. -/
def tableCards (player : Player) : List Card :=
  player.bank ++ (player.properties.map Prod.snd).flatten

/-- `removeCardById` from `src/server.js`: remove the first card with the
given id, returning it together with the remaining list. -/
def removeCardById (cards : List Card) (cardId : String) :
    Option Card × List Card :=
  match cards with
  | [] => (none, [])
  | c :: rest =>
    if c.id = cardId then (some c, rest)
    else
      let r := removeCardById rest cardId
      (r.1, c :: r.2)

/-- The property-group half of `removeCardFromTable`: scan the groups in
entry order and remove the first matching card. -/
def removeFromProps (props : Properties) (cardId : String) :
    Option Card × Properties :=
  match props with
  | [] => (none, [])
  | (color, cards) :: rest =>
    match removeCardById cards cardId with
    | (some c, cards') => (some c, (color, cards') :: rest)
    | (none, _) =>
      let r := removeFromProps rest cardId
      (r.1, (color, cards) :: r.2)

/-- `removeCardFromTable` from `src/server.js`: try the bank first, then the
property groups. -/
def removeCardFromTable (player : Player) (cardId : String) :
    Option Card × Player :=
  match removeCardById player.bank cardId with
  | (some c, bank') => (some c, { player with bank := bank' })
  | (none, _) =>
    let r := removeFromProps player.properties cardId
    (r.1, { player with properties := r.2 })

/-- Association-list read with JS `obj[key] || []` semantics. -/
def propGet (props : Properties) (color : String) : List Card :=
  (props.lookup color).getD []

/-- Association-list write: update the first matching key in place or append
a new key at the end, mirroring JS object key insertion. -/
def assocSet {α : Type} (l : List (String × α)) (k : String) (v : α) :
    List (String × α) :=
  match l with
  | [] => [(k, v)]
  | (k', v') :: rest =>
    if k' = k then (k, v) :: rest else (k', v') :: assocSet rest k v

/-- `addPropertyCard` from `src/server.js`: set `assignedColor` and push the
card onto the color group (creating the group if absent). -/
def addPropertyCard (player : Player) (card : Card) (color : String) :
    Player :=
  let card := { card with assignedColor := some color }
  { player with
    properties :=
      assocSet player.properties color (propGet player.properties color ++ [card]) }

/-- `canAttachBuilding` from `src/server.js`. -/
def canAttachBuilding (cards : List Card) (color : String) : Bool :=
  isFullSet cards color && color ≠ "railroad" && color ≠ "utility"

/-- `calculateRent` from `src/server.js`: clamped schedule lookup plus
house/hotel bonuses whenever the set is full. -/
def calculateRent (cards : List Card) (color : String) : Nat :=
  let rentScale := (RENT_TABLE.lookup color).getD [1]
  let boundedSize := max 1 (min cards.length rentScale.length)
  let baseRent := (rentScale.get? (boundedSize - 1)).getD 0
  if isFullSet cards color then
    baseRent + (cards.filter fun c => c.actionType = some "house").length * 3
      + (cards.filter fun c => c.actionType = some "hotel").length * 4
  else baseRent

/-- `rentDueForSet` from `src/utils/gameLogic.ts` (same algorithm as the
server's `calculateRent`, written out separately to mirror the source). -/
def rentDueForSet (cards : List Card) (color : String) : Nat :=
  let rentScale := (RENT_TABLE.lookup color).getD [1]
  let sized := max 1 (min cards.length rentScale.length)
  let baseRent := (rentScale.get? (sized - 1)).getD 0
  if isFullSet cards color then
    baseRent + (cards.filter fun c => c.actionType = some "house").length * 3
      + (cards.filter fun c => c.actionType = some "hotel").length * 4
  else baseRent

/-- `getStealableCards` from `src/server.js`: property cards outside full
sets, excluding buildings, tagged with their group's color. -/
def getStealableCards (player : Player) : List (String × Card) :=
  player.properties.flatMap fun e =>
    if isFullSet e.2 e.1 then []
    else
      (e.2.filter fun c =>
          ¬ (c.actionType = some "house" ∨ c.actionType = some "hotel")).map
        fun c => (e.1, c)

/-- `getCardDisplayColor` from `src/server.js`. -/
def getCardDisplayColor (card : Card) : Option String :=
  match card.assignedColor with
  | some c => some c
  | none =>
    if card.category = "property" ∨ card.category = "wildcard" then
      some (card.colors.head?.getD "brown")
    else none

/-- `getPlayer` from `src/server.js`. -/
def getPlayer (room : Room) (playerId : String) : Option Player :=
  room.players.find? fun p => p.id = playerId

/-- `getCurrentPlayer` from `src/server.js`. -/
def getCurrentPlayer (room : Room) : Option Player :=
  room.players.get? room.currentPlayerIndex

/-- Mutation of the player object returned by `getPlayer`: rewrite the first
player with the given id, leaving everyone else untouched. -/
def updateFirstPlayer (players : List Player) (playerId : String)
    (f : Player → Player) : List Player :=
  match players with
  | [] => []
  | p :: rest =>
    if p.id = playerId then f p :: rest
    else p :: updateFirstPlayer rest playerId f

/-- Room-level wrapper for `updateFirstPlayer`. -/
def updatePlayer (room : Room) (playerId : String) (f : Player → Player) :
    Room :=
  { room with players := updateFirstPlayer room.players playerId f }

/-- The lookup behind `new Map(allTableCards.map(...)).get(id)`: the JS `Map`
constructor keeps the last entry for a duplicated key. -/
def lookupLastById (cards : List Card) (cardId : String) : Option Card :=
  cards.reverse.find? fun c => c.id = cardId

/-- `[...new Set(requestedIds)]`: deduplicate keeping first occurrences. -/
def jsUniqueAux (l seen : List String) : List String :=
  match l with
  | [] => []
  | x :: xs =>
    if x ∈ seen then jsUniqueAux xs seen else x :: jsUniqueAux xs (x :: seen)

/-- Deduplicated id list, in first-occurrence order. -/
def jsUnique (l : List String) : List String := jsUniqueAux l []

/-- Result of `validateSelectedPayment`. -/
inductive PayValidation where
  | err (message : String)
  | ok (cards : List Card) (paid : Nat) (tableTotal : Nat)
deriving Repr, DecidableEq

/-- The resolution loop of `validateSelectedPayment`: every id must map to a
table card; the first failure aborts. -/
def resolveIds (find : String → Option Card) : List String → Option (List Card)
  | [] => some []
  | i :: is =>
    match find i with
    | none => none
    | some c => (resolveIds find is).map (c :: ·)

/-- `validateSelectedPayment` from `src/server.js`. -/
def validateSelectedPayment (payer : Player) (amount : Nat)
    (selectedCardIds : List String) : PayValidation :=
  let allTableCards := tableCards payer
  let tableTotal := (allTableCards.map Card.value).sum
  let uniqueIds := jsUnique selectedCardIds
  if tableTotal = 0 then
    if 0 < uniqueIds.length then
      .err "You have no table cards to pay with."
    else .ok [] 0 tableTotal
  else
    match resolveIds (lookupLastById allTableCards) uniqueIds with
    | none => .err "Selected payment cards must come from your table (bank/properties)."
    | some selectedCards =>
      let paid := (selectedCards.map Card.value).sum
      if amount ≤ tableTotal ∧ paid < amount then
        .err s!"Selected cards total ${paid}M. You must pay at least ${amount}M."
      else if tableTotal < amount ∧ paid ≠ tableTotal then
        .err s!"You cannot fully cover ${amount}M. Pay all table cards totaling ${tableTotal}M."
      else .ok selectedCards paid tableTotal

/-- Result of `applySelectedPayment`. -/
inductive PayApply where
  | err (message : String)
  | ok (paid requested remaining : Nat) (transferred : List Card)
deriving Repr, DecidableEq

/-- The transfer loop of `applySelectedPayment`: remove each selected card
from the payer's table; `none` signals the (partially mutated) failure exit. -/
def removeSelected (payer : Player) : List Card → Player × Option (List Card)
  | [] => (payer, some [])
  | c :: cs =>
    match removeCardFromTable payer c.id with
    | (none, payer') => (payer', none)
    | (some removed, payer') =>
      match removeSelected payer' cs with
      | (payer'', none) => (payer'', none)
      | (payer'', some rest) => (payer'', some (removed :: rest))

/-- The distribution half of `applySelectedPayment`: properties land in the
matching color group, concretely-colored wildcards behave as properties,
everything else goes to the receiver's bank. -/
def depositCard (receiver : Player) (card : Card) : Player :=
  if card.category = "property" then
    addPropertyCard receiver card
      ((card.assignedColor <|> card.colors.head?).getD "undefined")
  else if card.category = "wildcard" then
    let color : Option String :=
      match card.assignedColor with
      | some a => some a
      | none =>
        match card.colors.head? with
        | some c0 => if c0 ≠ "any" then some c0 else none
        | none => none
    match color with
    | some c => addPropertyCard receiver card c
    | none => { receiver with bank := receiver.bank ++ [card] }
  else { receiver with bank := receiver.bank ++ [card] }

/-- `applySelectedPayment` from `src/server.js`. -/
def applySelectedPayment (payer receiver : Player) (amount : Nat)
    (selectedCardIds : List String) : Player × Player × PayApply :=
  match validateSelectedPayment payer amount selectedCardIds with
  | .err m => (payer, receiver, .err m)
  | .ok cards paid _ =>
    match removeSelected payer cards with
    | (payer', none) =>
      (payer', receiver, .err "Failed to transfer selected payment cards.")
    | (payer', some transferred) =>
      (payer', transferred.foldl depositCard receiver,
        .ok paid amount (amount - paid) transferred)

/-- The draw loop of `drawCards` from `src/server.js`, over
`(count, deck, discard, hand)`: pop from the deck's end; when the deck is
empty, reshuffle the discard into a new deck (cloning is the identity on
values); stop when both piles are exhausted.  Returns
`(drawn, deck, discard, hand)`. -/
def drawLoop (sh : List Card → List Card) :
    Nat → List Card → List Card → List Card →
      Nat × List Card × List Card × List Card
  | 0, deck, discard, hand => (0, deck, discard, hand)
  | n + 1, deck, discard, hand =>
    if deck.isEmpty then
      if discard.isEmpty then (0, deck, discard, hand)
      else
        let deck2 := sh discard
        match deck2.getLast? with
        | none => (0, deck2, [], hand)
        | some card =>
          let r := drawLoop sh n deck2.dropLast [] (hand ++ [card])
          (r.1 + 1, r.2)
    else
      match deck.getLast? with
      | none => (0, deck, discard, hand)
      | some card =>
        let r := drawLoop sh n deck.dropLast discard (hand ++ [card])
        (r.1 + 1, r.2)

/-- `drawCards` from `src/server.js`: mutates the room's piles and the given
player's hand, returning the number of cards actually drawn. -/
def drawCards (sh : List Card → List Card) (room : Room) (player : Player)
    (count : Nat) : Nat × Room × Player :=
  let r := drawLoop sh count room.deck room.discard player.hand
  (r.1, { room with deck := r.2.1, discard := r.2.2.1 },
    { player with hand := r.2.2.2 })

/-- `checkWinner` from `src/server.js`: the first player with three full sets
is declared winner; the game stops and all pending state is cleared. -/
def checkWinner (room : Room) : Option Player × Room :=
  match room.players.find? hasWon with
  | none => (none, room)
  | some winner =>
    (some winner,
      { room with
        winnerId := some winner.id
        started := false
        pendingTurnDraw := none
        pendingPayment := none
        pendingReaction := none })

/-- Input to `startPendingPayment`. -/
structure PaymentDetails where
  sourcePlayerId : String
  receiverPlayerId : String
  actionType : String
  reason : String
  queue : List (String × Nat)
deriving Repr, DecidableEq

/-- `startPendingPayment` from `src/server.js`; `fid` stands in for the
`Date.now()`-based fresh payment id.  Returns the updated room and whether a
payment was actually started. -/
def startPendingPayment (fid : String) (room : Room)
    (details : PaymentDetails) : Room × Bool :=
  let queue :=
    ((details.queue.filter fun e => 0 < e.2).filter
        fun e => (getPlayer room e.1).isSome).map
      fun e => PaymentEntry.mk e.1 e.2 none
  if queue.isEmpty then ({ room with pendingPayment := none }, false)
  else
    ({ room with
        pendingPayment := some
          { id := fid
            sourcePlayerId := details.sourcePlayerId
            receiverPlayerId := details.receiverPlayerId
            actionType := details.actionType
            reason := details.reason
            queue := queue
            currentIndex := 0 } },
      true)

/-- JS `x || d` on an optional number: `0` is falsy. -/
def jsOrNat (o : Option Nat) (d : Nat) : Nat :=
  match o with
  | some a => if a = 0 then d else a
  | none => d

/-- `applyResolvedAction` from `src/server.js`: execute a resolved reaction
payload against the table model. -/
def applyResolvedAction (fid : String) (room : Room)
    (payload : ReactionPayload) : Room :=
  match getPlayer room payload.actorId with
  | none => room
  | some actor =>
    if payload.type = "debt_collector" then
      match payload.targetPlayerId.bind (getPlayer room) with
      | none => room
      | some target =>
        (startPendingPayment fid room
            { sourcePlayerId := actor.id
              receiverPlayerId := actor.id
              actionType := "debt_collector"
              reason := "Debt Collector"
              queue := [(target.id, jsOrNat payload.amount 5)] }).1
    else if payload.type = "birthday" then
      let queue :=
        payload.targetPlayerIds.flatMap fun targetId =>
          match getPlayer room targetId with
          | none => []
          | some target => if target.id = actor.id then [] else [(target.id, 2)]
      (startPendingPayment fid room
          { sourcePlayerId := actor.id
            receiverPlayerId := actor.id
            actionType := "birthday"
            reason := "Birthday"
            queue := queue }).1
    else if payload.type = "rent" then
      match payload.targetPlayerId.bind (getPlayer room) with
      | none => room
      | some target =>
        (startPendingPayment fid room
            { sourcePlayerId := actor.id
              receiverPlayerId := actor.id
              actionType := "rent"
              reason := "Rent"
              queue := [(target.id, jsOrNat payload.amount 0)] }).1
    else if payload.type = "sly_deal" then
      match payload.targetPlayerId.bind (getPlayer room) with
      | none => room
      | some target =>
        let stealable := getStealableCards target
        let picked :=
          (match payload.targetCardId with
            | some tid => stealable.find? fun e => e.2.id = tid
            | none => none) <|> stealable.head?
        match picked with
        | none => room
        | some (pcolor, pcard) =>
          match removeCardById (propGet target.properties pcolor) pcard.id with
          | (none, _) => room
          | (some stolen, cards') =>
            let room := updatePlayer room target.id fun t =>
              { t with properties := assocSet t.properties pcolor cards' }
            let destinationColor := (getCardDisplayColor stolen).getD pcolor
            updatePlayer room payload.actorId fun a =>
              addPropertyCard a stolen destinationColor
    else if payload.type = "forced_deal" then
      match payload.targetPlayerId.bind (getPlayer room) with
      | none => room
      | some target =>
        let actorOptions := getStealableCards actor
        let targetOptions := getStealableCards target
        let actorPick :=
          (match payload.actorCardId with
            | some aid => actorOptions.find? fun e => e.2.id = aid
            | none => none) <|> actorOptions.head?
        let targetPick :=
          (match payload.targetCardId with
            | some tid => targetOptions.find? fun e => e.2.id = tid
            | none => none) <|> targetOptions.head?
        match actorPick, targetPick with
        | some (acolor, acard), some (tcolor, tcard) =>
          let ra := removeCardById (propGet actor.properties acolor) acard.id
          let room := updatePlayer room actor.id fun a =>
            { a with properties := assocSet a.properties acolor ra.2 }
          let rt :=
            removeCardById
              (propGet ((getPlayer room target.id).getD target).properties tcolor)
              tcard.id
          let room := updatePlayer room target.id fun t =>
            { t with properties := assocSet t.properties tcolor rt.2 }
          match ra.1, rt.1 with
          | some actorCard, some targetCard =>
            let actorToColor := (getCardDisplayColor targetCard).getD tcolor
            let targetToColor := (getCardDisplayColor actorCard).getD acolor
            let room := updatePlayer room actor.id fun a =>
              addPropertyCard a targetCard actorToColor
            updatePlayer room target.id fun t =>
              addPropertyCard t actorCard targetToColor
          | _, _ => room
        | _, _ => room
    else if payload.type = "deal_breaker" then
      match payload.targetPlayerId.bind (getPlayer room) with
      | none => room
      | some target =>
        let candidateColor :=
          payload.setColor <|> (fullSetColors target.properties).head?
        match candidateColor with
        | none => room
        | some color =>
          if ¬ isFullSet (propGet target.properties color) color then room
          else
            let stolenSet := propGet target.properties color
            let room := updatePlayer room target.id fun t =>
              { t with properties := assocSet t.properties color [] }
            stolenSet.foldl
              (fun room card =>
                let destinationColor := (getCardDisplayColor card).getD color
                updatePlayer room payload.actorId fun a =>
                  addPropertyCard a card destinationColor)
              room
    else room

/-- `resolvePendingReaction` from `src/server.js`: guarded by the reaction
id, clear the pending reaction, then either record the cancellation or apply
the payload (followed by a winner check when no payment was started). -/
def resolvePendingReaction (fid : String) (room : Room) (pendingId : String)
    (canceledByPlayerId : Option String) : Room :=
  match room.pendingReaction with
  | none => room
  | some pending =>
    if pending.id ≠ pendingId then room
    else
      let room := { room with pendingReaction := none }
      match canceledByPlayerId with
      | some _ => room
      | none =>
        let room := applyResolvedAction fid room pending.payload
        if room.pendingPayment.isNone then (checkWinner room).2 else room

/-- The payload of a `game:play_card` intent. -/
structure PlayPayload where
  cardId : String
  mode : String
  chosenColor : Option String := none
  targetPlayerId : Option String := none
  rentColor : Option String := none
  setColor : Option String := none
  targetCardId : Option String := none
  actorCardId : Option String := none
deriving Repr, DecidableEq

/-- The guard `room.pendingTurnDraw?.playerId === socket.id &&
room.pendingTurnDraw.count > 0`. -/
def pendingDrawBlocks (room : Room) (playerId : String) : Bool :=
  match room.pendingTurnDraw with
  | some d => decide (d.playerId = playerId ∧ 0 < d.count)
  | none => false

/-- `player.hand.push(handCard)` on the validation-failure exits of
`playCard`: the inspected card goes back to the end of the hand. -/
def giveBack (room : Room) (playerId : String) (card : Card) : Room :=
  updatePlayer room playerId fun p => { p with hand := p.hand ++ [card] }

/-- `queuePendingReaction` from `src/server.js` (the timer bookkeeping is
outside the state model; installing replaces any previous reaction). -/
def queuePendingReaction (room : Room) (pending : PendingReaction) : Room :=
  { room with pendingReaction := some pending }

/-- `choices.includes(requested) ? requested : choices[0]`. -/
def chooseFrom (choices : List String) (requested : Option String) :
    Option String :=
  match requested with
  | some c => if c ∈ choices then some c else choices.head?
  | none => choices.head?

/-- `MAX_CARDS_PER_TURN` from `src/server.js`. -/
def MAX_CARDS_PER_TURN : Nat := 3

/-- The `mode === 'bank'` block of `playCard` from `src/server.js`.  `room`
already has the card removed from the author's hand. -/
def playCardBank (room : Room) (actorId : String) (handCard : Card) :
    Room × Option String :=
  let room := updatePlayer room actorId fun p =>
    { p with bank := p.bank ++ [handCard] }
  let room :=
    { room with cardsPlayedThisTurn := room.cardsPlayedThisTurn + 1 }
  ((checkWinner room).2, none)

/-- The `mode === 'property'` block of `playCard` from `src/server.js`. -/
def playCardProperty (room : Room) (actorId : String) (payload : PlayPayload)
    (player : Player) (handCard : Card) : Room × Option String :=
  if handCard.category = "property" then
    let color := handCard.colors.head?.getD "undefined"
    let room := updatePlayer room actorId fun p =>
      addPropertyCard p handCard color
    let room :=
      { room with cardsPlayedThisTurn := room.cardsPlayedThisTurn + 1 }
    ((checkWinner room).2, none)
  else if handCard.category = "wildcard" then
    let choices :=
      if handCard.colors.head? = some "any" then PROPERTY_COLORS
      else handCard.colors
    match chooseFrom choices payload.chosenColor with
    | none =>
      (giveBack room actorId handCard,
        some "No valid color available for wildcard.")
    | some chosenColor =>
      let room := updatePlayer room actorId fun p =>
        addPropertyCard p handCard chosenColor
      let room :=
        { room with cardsPlayedThisTurn := room.cardsPlayedThisTurn + 1 }
      ((checkWinner room).2, none)
  else if handCard.category = "action" ∧
      (handCard.actionType = some "house" ∨
        handCard.actionType = some "hotel") then
    let color := payload.chosenColor.getD "undefined"
    let setCards := propGet player.properties color
    if ¬ canAttachBuilding setCards color then
      (giveBack room actorId handCard,
        some "House/Hotel can only be added to a full non-utility/non-railroad set.")
    else if handCard.actionType = some "hotel" ∧
        ¬ setCards.any fun c => c.actionType = some "house" then
      (giveBack room actorId handCard,
        some "Hotel requires a House on that set.")
    else
      let room := updatePlayer room actorId fun p =>
        addPropertyCard p handCard color
      let room :=
        { room with cardsPlayedThisTurn := room.cardsPlayedThisTurn + 1 }
      ((checkWinner room).2, none)
  else
    (giveBack room actorId handCard,
      some "That card cannot be played into properties.")

/-- The `category === 'action'` block of `playCard` from `src/server.js`. -/
def playCardAction (sh : List Card → List Card) (fid : String) (room : Room)
    (actorId : String) (payload : PlayPayload) (player : Player)
    (handCard : Card) : Room × Option String :=
  if handCard.actionType = some "just_say_no" then
    (giveBack room actorId handCard,
      some "Just Say No is a reaction card. Bank it or use it in reaction window.")
  else if
      (handCard.actionType = some "debt_collector" ∨
        handCard.actionType = some "sly_deal" ∨
        handCard.actionType = some "forced_deal" ∨
        handCard.actionType = some "deal_breaker") ∧
      (payload.targetPlayerId = none ∨
        payload.targetPlayerId = some actorId) then
    let cname := handCard.name
    (giveBack room actorId handCard,
      some s!"{cname} requires one opponent target.")
  else
    let room :=
      { room with cardsPlayedThisTurn := room.cardsPlayedThisTurn + 1 }
    let room := { room with discard := room.discard ++ [handCard] }
    if handCard.actionType = some "pass_go" then
      let r := drawCards sh room player 2
      let room := updatePlayer r.2.1 actorId fun p =>
        { p with hand := r.2.2.hand }
      (room, none)
    else if handCard.actionType = some "double_rent" then
      let effects := (room.turnEffects.lookup actorId).getD ⟨1⟩
      let room :=
        { room with
          turnEffects :=
            assocSet room.turnEffects actorId ⟨effects.rentMultiplier * 2⟩ }
      (room, none)
    else if handCard.actionType = some "debt_collector" then
      (queuePendingReaction room
          { id := fid
            sourcePlayerId := actorId
            targetPlayerIds := [payload.targetPlayerId.getD ""]
            actionType := "debt_collector"
            payload :=
              { type := "debt_collector"
                actorId := actorId
                targetPlayerId := payload.targetPlayerId
                amount := some 5 } },
        none)
    else if handCard.actionType = some "birthday" then
      let targets :=
        (room.players.map Player.id).filter fun i => i ≠ actorId
      (queuePendingReaction room
          { id := fid
            sourcePlayerId := actorId
            targetPlayerIds := targets
            actionType := "birthday"
            payload :=
              { type := "birthday"
                actorId := actorId
                targetPlayerIds := targets } },
        none)
    else if handCard.actionType = some "sly_deal" then
      (queuePendingReaction room
          { id := fid
            sourcePlayerId := actorId
            targetPlayerIds := [payload.targetPlayerId.getD ""]
            actionType := "sly_deal"
            payload :=
              { type := "sly_deal"
                actorId := actorId
                targetPlayerId := payload.targetPlayerId
                targetCardId := payload.targetCardId } },
        none)
    else if handCard.actionType = some "forced_deal" then
      (queuePendingReaction room
          { id := fid
            sourcePlayerId := actorId
            targetPlayerIds := [payload.targetPlayerId.getD ""]
            actionType := "forced_deal"
            payload :=
              { type := "forced_deal"
                actorId := actorId
                targetPlayerId := payload.targetPlayerId
                actorCardId := payload.actorCardId
                targetCardId := payload.targetCardId } },
        none)
    else if handCard.actionType = some "deal_breaker" then
      (queuePendingReaction room
          { id := fid
            sourcePlayerId := actorId
            targetPlayerIds := [payload.targetPlayerId.getD ""]
            actionType := "deal_breaker"
            payload :=
              { type := "deal_breaker"
                actorId := actorId
                targetPlayerId := payload.targetPlayerId
                setColor := payload.setColor } },
        none)
    else (room, none)

/-- The `category === 'rent'` block of `playCard` from `src/server.js`. -/
def playCardRent (fid : String) (room : Room) (actorId : String)
    (payload : PlayPayload) (player : Player) (handCard : Card) :
    Room × Option String :=
  if payload.targetPlayerId = none ∨
      payload.targetPlayerId = some actorId then
    (giveBack room actorId handCard,
      some "Rent requires one opponent target.")
  else
    let rentChoices :=
      if handCard.rentColors.head? = some "any" then PROPERTY_COLORS
      else handCard.rentColors
    match chooseFrom rentChoices payload.rentColor with
    | none =>
      (giveBack room actorId handCard, some "No valid rent color selected.")
    | some chosenColor =>
      let propertySet := propGet player.properties chosenColor
      if propertySet.isEmpty then
        (giveBack room actorId handCard,
          some "You must own at least one card in that color to charge rent.")
      else
        let effects := (room.turnEffects.lookup actorId).getD ⟨1⟩
        let baseRent := calculateRent propertySet chosenColor
        let rentAmount := baseRent * effects.rentMultiplier
        let room :=
          { room with
            turnEffects := assocSet room.turnEffects actorId ⟨1⟩ }
        let room :=
          { room with cardsPlayedThisTurn := room.cardsPlayedThisTurn + 1 }
        let room := { room with discard := room.discard ++ [handCard] }
        (queuePendingReaction room
            { id := fid
              sourcePlayerId := actorId
              targetPlayerIds := [payload.targetPlayerId.getD ""]
              actionType := "rent"
              payload :=
                { type := "rent"
                  actorId := actorId
                  targetPlayerId := payload.targetPlayerId
                  amount := some rentAmount
                  rentColor := some chosenColor } },
          none)

/-- `playCard` from `src/server.js`.  `sh` is the shuffle used by a possible
Pass Go draw, `fid` the fresh id for a queued reaction, `actorId` the
submitting socket's id.  Returns the updated room and the privately emitted
validation error, if any; the mode/category blocks of the source function
are the `playCard…` helpers above. -/
def playCard (sh : List Card → List Card) (fid : String) (room : Room)
    (actorId : String) (payload : PlayPayload) : Room × Option String :=
  if ¬ room.started ∨ room.winnerId.isSome then
    (room, some "Game is not active.")
  else if room.pendingReaction.isSome then
    (room, some "Waiting for reaction window to resolve.")
  else if room.pendingPayment.isSome then
    (room, some "Waiting for pending payment selection.")
  else
    match getPlayer room actorId, getCurrentPlayer room with
    | none, _ => (room, some "It is not your turn.")
    | some _, none => (room, some "It is not your turn.")
    | some player, some currentPlayer =>
      if currentPlayer.id ≠ actorId then (room, some "It is not your turn.")
      else if pendingDrawBlocks room actorId then
        (room, some "Draw turn cards from the deck first.")
      else if MAX_CARDS_PER_TURN ≤ room.cardsPlayedThisTurn then
        (room, some "You have already played 3 cards this turn.")
      else
        match removeCardById player.hand payload.cardId with
        | (none, _) => (room, some "Card not found in hand.")
        | (some handCard, hand') =>
          let player := { player with hand := hand' }
          let room := updatePlayer room actorId fun p => { p with hand := hand' }
          if payload.mode = "bank" then
            playCardBank room actorId handCard
          else if payload.mode = "property" then
            playCardProperty room actorId payload player handCard
          else if payload.mode ≠ "action" then
            (giveBack room actorId handCard, some "Unknown play mode.")
          else if handCard.category = "action" then
            playCardAction sh fid room actorId payload player handCard
          else if handCard.category = "rent" then
            playCardRent fid room actorId payload player handCard
          else
            (giveBack room actorId handCard,
              some "This card cannot be played as an action.")

/-- Outcome of the group scan inside `moveWildcard`.  The error variants
carry the properties as left by the JS splice-then-push (the found card is
re-appended at the end of its group). -/
inductive MoveOutcome where
  | notFound
  | errNotWildcard (props : Properties)
  | errBadColor (props : Properties)
  | moved (card : Card) (props : Properties)
deriving Repr, DecidableEq

/-- The `for (const [color, cards] of Object.entries(player.properties))`
loop of `moveWildcard`: find the first group holding the card, splice it
out, and validate it. -/
def moveWildcardScan (cardId newColor : String) :
    Properties → MoveOutcome
  | [] => .notFound
  | (color, cards) :: rest =>
    match removeCardById cards cardId with
    | (some card, cards') =>
      if card.category ≠ "wildcard" then
        .errNotWildcard ((color, cards' ++ [card]) :: rest)
      else
        let validColors :=
          if card.colors.head? = some "any" then PROPERTY_COLORS
          else card.colors
        if newColor ∉ validColors then
          .errBadColor ((color, cards' ++ [card]) :: rest)
        else .moved card ((color, cards') :: rest)
    | (none, _) =>
      match moveWildcardScan cardId newColor rest with
      | .notFound => .notFound
      | .errNotWildcard ps => .errNotWildcard ((color, cards) :: ps)
      | .errBadColor ps => .errBadColor ((color, cards) :: ps)
      | .moved card ps => .moved card ((color, cards) :: ps)

/-- `moveWildcard` from `src/server.js`. -/
def moveWildcard (room : Room) (actorId : String) (cardId newColor : String) :
    Room × Option String :=
  if ¬ room.started then (room, some "Game is not active.")
  else if room.pendingReaction.isSome ∨ room.pendingPayment.isSome then
    (room, some "Cannot move wildcard while action resolution is pending.")
  else
    match getPlayer room actorId with
    | none => (room, some "Player not found.")
    | some player =>
      match moveWildcardScan cardId newColor player.properties with
      | .notFound => (room, some "Wildcard card not found in your properties.")
      | .errNotWildcard props =>
        (updatePlayer room actorId fun p => { p with properties := props },
          some "Only wildcard cards can be moved.")
      | .errBadColor props =>
        (updatePlayer room actorId fun p => { p with properties := props },
          some "Invalid color for this wildcard.")
      | .moved card props =>
        let room := updatePlayer room actorId fun p =>
          addPropertyCard { p with properties := props } card newColor
        ((checkWinner room).2, none)

/-- Acceptance of a payment validation result. -/
def payOk : PayValidation → Bool
  | .ok _ _ _ => true
  | .err _ => false

/-- Value of the deduplicated, table-resolved selection (the `paid` total the
validator computes). -/
def selectedSum (payer : Player) (ids : List String) : Nat :=
  (((jsUnique ids).filterMap (lookupLastById (tableCards payer))).map
      Card.value).sum

/- Concrete inputs used by witnesses and counterexamples. -/

/-- A money card of the given value. -/
def mkMoney (i : String) (v : Nat) : Card :=
  { id := i, name := i, category := "money", value := v }

/-- A plain property card of the given color. -/
def mkProp (i color : String) : Card :=
  { id := i, name := i, category := "property", value := 2, colors := [color],
    assignedColor := some color }

/-- A payer whose whole table is one zero-value card. -/
def zeroPayer : Player :=
  { id := "pz", name := "Zed", hand := [], bank := [mkMoney "z0" 0],
    properties := [] }

/-- A payer with a 3M and a 4M money card banked. -/
def richPayer : Player :=
  { id := "pr", name := "Rich", hand := [], bank := [mkMoney "m3" 3, mkMoney "m4" 4],
    properties := [] }

/-- A receiver with an empty table. -/
def emptyPlayer : Player :=
  { id := "pe", name := "Eve", hand := [], bank := [], properties := [] }

/-- A full railroad set carrying a house card. -/
def railHouseSet : List Card :=
  [mkProp "r1" "railroad", mkProp "r2" "railroad", mkProp "r3" "railroad",
   mkProp "r4" "railroad",
   { id := "h1", name := "House", category := "action", value := 3,
     actionType := some "house" }]

/-- Five-card deck for the draw example. -/
def deckFive : List Card :=
  [mkMoney "d0" 1, mkMoney "d1" 1, mkMoney "d2" 1, mkMoney "d3" 1,
   mkMoney "d4" 1]

/-- Ten-card discard pile for the draw example. -/
def discardTen : List Card :=
  [mkMoney "c0" 1, mkMoney "c1" 1, mkMoney "c2" 1, mkMoney "c3" 1,
   mkMoney "c4" 1, mkMoney "c5" 1, mkMoney "c6" 1, mkMoney "c7" 1,
   mkMoney "c8" 1, mkMoney "c9" 1]

/-- A room for the draw example. -/
def roomDraw : Room :=
  { id := "rd", hostId := "p1", players := [emptyPlayer], started := true,
    deck := deckFive, discard := discardTen, currentPlayerIndex := 0,
    cardsPlayedThisTurn := 0 }

/-- A Double The Rent action card. -/
def doubleRentCard : Card :=
  { id := "dr2", name := "Double The Rent", category := "action", value := 1,
    actionType := some "double_rent" }

/-- Acting player holding a Double The Rent card. -/
def aliceDR : Player :=
  { id := "p1", name := "Alice", hand := [doubleRentCard], bank := [],
    properties := [] }

/-- An idle opponent. -/
def bobIdle : Player :=
  { id := "p2", name := "Bob", hand := [], bank := [], properties := [] }

/-- A room where Alice already has an active x2 rent multiplier (a double
rent was played earlier this turn). -/
def roomDR : Room :=
  { id := "r", hostId := "p1", players := [aliceDR, bobIdle], started := true,
    deck := [], discard := [], currentPlayerIndex := 0,
    cardsPlayedThisTurn := 1, turnEffects := [("p1", ⟨2⟩)] }

/-- Play payload for the Double The Rent card. -/
def drPayload : PlayPayload := { cardId := "dr2", mode := "action" }

/-- A green rent card. -/
def greenRentCard : Card :=
  { id := "rc", name := "Rent", category := "rent", value := 1,
    rentColors := ["green", "blue"] }

/-- Acting player with a rent card in hand and two green properties. -/
def aliceRent : Player :=
  { id := "p1", name := "Alice", hand := [greenRentCard], bank := [],
    properties := [("green", [mkProp "g1" "green", mkProp "g2" "green"])] }

/-- A room matching the spec's rent example: two green cards and an active
x2 multiplier. -/
def roomRent : Room :=
  { id := "r", hostId := "p1", players := [aliceRent, bobIdle], started := true,
    deck := [], discard := [], currentPlayerIndex := 0,
    cardsPlayedThisTurn := 1, turnEffects := [("p1", ⟨2⟩)] }

/-- Play payload for the rent card targeting Bob on green. -/
def rentPayload : PlayPayload :=
  { cardId := "rc", mode := "action", targetPlayerId := some "p2",
    rentColor := some "green" }

/-- A wildcard with affinity `any`, currently assigned to green. -/
def wildAny : Card :=
  { id := "w1", name := "Wild", category := "wildcard", value := 0,
    colors := ["any"], assignedColor := some "green" }

/-- Bob one wildcard move away from a third full set. -/
def bobAlmostWin : Player :=
  { id := "p2"
    name := "Bob"
    hand := []
    bank := []
    properties :=
      [("brown", [mkProp "b1" "brown", mkProp "b2" "brown"]),
       ("blue", [mkProp "u1" "blue", mkProp "u2" "blue"]),
       ("utility", [mkProp "t1" "utility"]),
       ("green", [wildAny])] }

/-- A room where moving Bob's wildcard to utility wins the game (and Bob is
not the current player). -/
def roomWild : Room :=
  { id := "r", hostId := "p1", players := [emptyPlayer, bobAlmostWin],
    started := true, deck := [], discard := [], currentPlayerIndex := 0,
    cardsPlayedThisTurn := 0 }

/-- Bob with only the wildcard and one brown card: no win possible. -/
def bobNoWin : Player :=
  { id := "p2", name := "Bob", hand := [], bank := [],
    properties := [("brown", [mkProp "b1" "brown"]), ("green", [wildAny])] }

/-- A room where moving Bob's wildcard to blue does not win (Bob is not the
current player either). -/
def roomWildNoWin : Room :=
  { id := "r", hostId := "p1", players := [emptyPlayer, bobNoWin],
    started := true, deck := [], discard := [], currentPlayerIndex := 0,
    cardsPlayedThisTurn := 2,
    pendingTurnDraw := some { playerId := "pe", count := 2 } }

/-- A player holding exactly full brown, blue and utility sets. -/
def threeSetWinner : Player :=
  { id := "pw", name := "Winn", hand := [], bank := [],
    properties :=
      [("brown", [mkProp "b1" "brown", mkProp "b2" "brown"]),
       ("blue", [mkProp "u1" "blue", mkProp "u2" "blue"]),
       ("utility", [mkProp "t1" "utility", mkProp "t2" "utility"])] }

/-- A room containing `threeSetWinner`. -/
def roomWinner : Room :=
  { id := "rw", hostId := "pw", players := [emptyPlayer, threeSetWinner],
    started := true, deck := [], discard := [], currentPlayerIndex := 0,
    cardsPlayedThisTurn := 0 }

/-- The frame a rejected play-card intent must preserve: every room field is
unchanged and every player keeps id, name, bank and properties, with the
hand preserved up to reordering (the inspected card is re-appended at the
end of the author's hand). -/
def errorFrame (room r' : Room) : Prop :=
  r'.started = room.started ∧ r'.deck = room.deck ∧
    r'.discard = room.discard ∧
    r'.currentPlayerIndex = room.currentPlayerIndex ∧
    r'.cardsPlayedThisTurn = room.cardsPlayedThisTurn ∧
    r'.pendingTurnDraw = room.pendingTurnDraw ∧
    r'.pendingReaction = room.pendingReaction ∧
    r'.pendingPayment = room.pendingPayment ∧
    r'.turnEffects = room.turnEffects ∧ r'.winnerId = room.winnerId ∧
    List.Forall₂
      (fun p q => p.id = q.id ∧ p.name = q.name ∧ p.bank = q.bank ∧
        p.properties = q.properties ∧ p.hand.Perm q.hand)
      room.players r'.players

/- General helper lemmas about the association-list and lookup helpers. -/

theorem rentScale_ne_nil (color : String) :
    (RENT_TABLE.lookup color).getD [1] ≠ [] := by
  simp only [RENT_TABLE, List.lookup]
  repeat' split
  all_goals simp

/-- C5: corrected.  The base rent is the schedule entry at the (clamped)
1-based index `min(len, schedule.length)`, but the +3/+4 house/hotel bonus
is added whenever the set is full, regardless of whether the color is
buildable — `calculateRent` (and the identical `rentDueForSet`) has no
railroad/utility exclusion. -/
theorem c5_calculateRent_characterization (cards : List Card) (color : String)
    (hne : cards ≠ []) :
    calculateRent cards color =
      (((RENT_TABLE.lookup color).getD [1]).get?
          (min cards.length ((RENT_TABLE.lookup color).getD [1]).length - 1)).getD 0
        + (if isFullSet cards color then
            3 * (cards.filter fun c => c.actionType = some "house").length
              + 4 * (cards.filter fun c => c.actionType = some "hotel").length
          else 0) ∧
    rentDueForSet cards color = calculateRent cards color := by
  constructor
  · have hlen : 0 < cards.length := List.length_pos.mpr hne
    have hsc : 0 < ((RENT_TABLE.lookup color).getD [1]).length :=
      List.length_pos.mpr (rentScale_ne_nil color)
    have hmax :
        max 1 (min cards.length ((RENT_TABLE.lookup color).getD [1]).length) =
          min cards.length ((RENT_TABLE.lookup color).getD [1]).length := by
      omega
    simp only [calculateRent]
    rw [hmax]
    split <;> omega
  · rfl

/-- C5 witness: two green cards (set of 3, not full, schedule `[2, 4, 7]`)
give base rent 4 and no bonus. -/
theorem c5_witness :
    ([mkProp "g1" "green", mkProp "g2" "green"] : List Card) ≠ [] ∧
    calculateRent [mkProp "g1" "green", mkProp "g2" "green"] "green" = 4 := by
  have h := c5_calculateRent_characterization
    [mkProp "g1" "green", mkProp "g2" "green"] "green" (by decide)
  exact ⟨by decide, by rw [h.1]; decide⟩

/-- C5 counterexample: a full railroad set carrying a house card is charged
`4 + 3 = 7`, not the schedule value 4 the claim requires for non-buildable
colors. -/
theorem c5_counterexample :
    isFullSet railHouseSet "railroad" = true ∧
    canAttachBuilding railHouseSet "railroad" = false ∧
    (((RENT_TABLE.lookup "railroad").getD [1]).get?
        (min railHouseSet.length
          ((RENT_TABLE.lookup "railroad").getD [1]).length - 1)).getD 0 = 4 ∧
    calculateRent railHouseSet "railroad" = 7 ∧ (7 : Nat) ≠ 4 := by
  decide

theorem drawLoop_inv (sh : List Card → List Card)
    (hsh : ∀ l, (sh l).length = l.length) :
    ∀ (n : Nat) (deck discard hand : List Card),
      (drawLoop sh n deck discard hand).1 =
          min n (deck.length + discard.length) ∧
        (drawLoop sh n deck discard hand).2.1.length +
            (drawLoop sh n deck discard hand).2.2.1.length =
          deck.length + discard.length -
            min n (deck.length + discard.length) ∧
        (drawLoop sh n deck discard hand).2.2.2.length =
          hand.length + min n (deck.length + discard.length) ∧
        (discard = [] → (drawLoop sh n deck discard hand).2.2.1 = []) ∧
        (deck.length < min n (deck.length + discard.length) →
          (drawLoop sh n deck discard hand).2.2.1 = []) := by
  intro n
  induction n with
  | zero =>
    intro deck discard hand
    simp [drawLoop]
  | succ n ih =>
    intro deck discard hand
    by_cases hd : deck.isEmpty
    · by_cases hc : discard.isEmpty
      · have hd' : deck = [] := List.isEmpty_iff.mp hd
        have hc' : discard = [] := List.isEmpty_iff.mp hc
        subst hd' hc'
        simp [drawLoop]
      · have hd' : deck = [] := List.isEmpty_iff.mp hd
        subst hd'
        have hc' : discard.isEmpty = false := by simpa using hc
        have hlen2 : (sh discard).length = discard.length := hsh discard
        have hcpos : 0 < discard.length := by
          rcases discard with _ | _
          · simp at hc
          · simp
        have hne2 : sh discard ≠ [] := by
          intro hnil
          rw [hnil] at hlen2
          simp only [List.length_nil] at hlen2
          omega
        obtain ⟨card, hcard⟩ := Option.isSome_iff_exists.mp
          (List.getLast?_isSome.mpr hne2)
        have hdl : (sh discard).dropLast.length = discard.length - 1 := by
          rw [List.length_dropLast, hlen2]
        obtain ⟨i1, i2, i3, i4, i5⟩ := ih (sh discard).dropLast [] (hand ++ [card])
        rw [hdl] at i1 i2 i3
        simp only [drawLoop, List.isEmpty_nil, if_true, hc',
          Bool.false_eq_true, if_false, hcard]
        refine ⟨?_, ?_, ?_, ?_, ?_⟩
        · rw [i1]
          simp only [List.length_nil]
          omega
        · rw [i2]
          simp only [List.length_nil]
          omega
        · rw [i3]
          simp only [List.length_nil, List.length_append, List.length_cons]
          omega
        · intro _; exact i4 rfl
        · intro _; exact i4 rfl
    · have hd' : deck.isEmpty = false := by simpa using hd
      have hne : deck ≠ [] := by
        intro hnil
        rw [hnil] at hd'
        simp at hd'
      obtain ⟨card, hcard⟩ := Option.isSome_iff_exists.mp
        (List.getLast?_isSome.mpr hne)
      have hdl : deck.dropLast.length = deck.length - 1 :=
        List.length_dropLast deck
      have hdpos : 0 < deck.length := List.length_pos.mpr hne
      obtain ⟨i1, i2, i3, i4, i5⟩ := ih deck.dropLast discard (hand ++ [card])
      rw [hdl] at i1 i2 i3 i5
      simp only [drawLoop, hd', Bool.false_eq_true, if_false, hcard]
      refine ⟨?_, ?_, ?_, ?_, ?_⟩
      · rw [i1]; omega
      · rw [i2]; omega
      · rw [i3]
        simp only [List.length_append, List.length_cons, List.length_nil]
        omega
      · intro hcnil; exact i4 hcnil
      · intro hlt
        exact i5 (by omega)

/-- C6: drawing pops one card at a time from the deck's end, reshuffling the
discard into a fresh deck whenever the deck empties mid-draw; the returned
count equals `min(requested, deck + discard)`, so it falls short of the
request only when both piles are exhausted (and then both end empty); a draw
that had to reshuffle leaves the discard empty; the player's hand grows by
exactly the drawn count. -/
theorem c6_drawCards_spec (sh : List Card → List Card) (room : Room)
    (player : Player) (count : Nat)
    (hsh : ∀ l, (sh l).length = l.length) :
    (drawCards sh room player count).1 =
        min count (room.deck.length + room.discard.length) ∧
      ((drawCards sh room player count).1 < count →
        (drawCards sh room player count).2.1.deck = [] ∧
          (drawCards sh room player count).2.1.discard = []) ∧
      (drawCards sh room player count).2.1.deck.length +
          (drawCards sh room player count).2.1.discard.length =
        room.deck.length + room.discard.length -
          (drawCards sh room player count).1 ∧
      (drawCards sh room player count).2.2.hand.length =
        player.hand.length + (drawCards sh room player count).1 ∧
      (room.deck.length < (drawCards sh room player count).1 →
        (drawCards sh room player count).2.1.discard = []) := by
  have h := drawLoop_inv sh hsh count room.deck room.discard player.hand
  simp only [drawCards]
  refine ⟨h.1, ?_, ?_, ?_, ?_⟩
  · intro hlt
    rw [h.1] at hlt
    have htot : room.deck.length + room.discard.length < count := by omega
    have hmin : min count (room.deck.length + room.discard.length) =
        room.deck.length + room.discard.length := by omega
    have hzero :
        (drawLoop sh count room.deck room.discard player.hand).2.1.length +
          (drawLoop sh count room.deck room.discard player.hand).2.2.1.length
          = 0 := by
      rw [h.2.1, hmin]; omega
    constructor
    · have : (drawLoop sh count room.deck room.discard player.hand).2.1.length
          = 0 := by omega
      exact List.length_eq_zero.mp this
    · have :
          (drawLoop sh count room.deck room.discard player.hand).2.2.1.length
          = 0 := by omega
      exact List.length_eq_zero.mp this
  · rw [h.2.1, h.1]
  · rw [h.2.2.1, h.1]
  · intro hlt
    rw [h.1] at hlt
    exact h.2.2.2.2 hlt

/-- C6 witness: a 5-card deck, a 10-card discard and a request for 8 yield
8 drawn cards, a 7-card deck and an empty discard. -/
theorem c6_witness :
    (drawCards (fun l => l) roomDraw emptyPlayer 8).1 = 8 ∧
    (drawCards (fun l => l) roomDraw emptyPlayer 8).2.1.deck.length = 7 ∧
    (drawCards (fun l => l) roomDraw emptyPlayer 8).2.1.discard = [] ∧
    (drawCards (fun l => l) roomDraw emptyPlayer 8).2.2.hand.length = 8 := by
  have h := c6_drawCards_spec (fun l => l) roomDraw emptyPlayer 8
    (fun _ => rfl)
  have h1 : (drawCards (fun l => l) roomDraw emptyPlayer 8).1 = 8 := by
    rw [h.1]; decide
  refine ⟨h1, ?_, ?_, ?_⟩
  · have h2 := h.2.2.1
    have h5 := h.2.2.2.2 (by rw [h1]; decide)
    rw [h1, h5] at h2
    simpa using h2
  · exact h.2.2.2.2 (by rw [h1]; decide)
  · rw [h.2.2.2.1, h1]; decide

theorem updatePlayer_pendingReaction (room : Room) (pid : String)
    (f : Player → Player) :
    (updatePlayer room pid f).pendingReaction = room.pendingReaction := rfl

theorem startPendingPayment_pendingReaction (fid : String) (room : Room)
    (details : PaymentDetails) :
    (startPendingPayment fid room details).1.pendingReaction =
      room.pendingReaction := by
  simp only [startPendingPayment]
  split <;> rfl

theorem foldl_addProp_pendingReaction (pid color : String)
    (cards : List Card) (room : Room) :
    (cards.foldl
        (fun room card =>
          updatePlayer room pid fun a =>
            addPropertyCard a card ((getCardDisplayColor card).getD color))
        room).pendingReaction = room.pendingReaction := by
  induction cards generalizing room with
  | nil => rfl
  | cons c rest ih => rw [List.foldl_cons, ih, updatePlayer_pendingReaction]

theorem applyResolvedAction_pendingReaction (fid : String) (room : Room)
    (payload : ReactionPayload) :
    (applyResolvedAction fid room payload).pendingReaction =
      room.pendingReaction := by
  simp only [applyResolvedAction]
  repeat' split
  all_goals
    first
      | rfl
      | exact startPendingPayment_pendingReaction _ _ _
      | (rw [foldl_addProp_pendingReaction]; rfl)

theorem checkWinner_pendingReaction_none (room : Room)
    (h : room.pendingReaction = none) :
    (checkWinner room).2.pendingReaction = none := by
  unfold checkWinner
  split
  · exact h
  · rfl

/-- C7: resolving a pending reaction is idempotent in its id: once a
resolution attempt for `pendingId` has run (whether it matched, applied,
cancelled, or was already stale), any later resolution attempt for the same
id leaves the room unchanged. -/
theorem c7_resolve_idempotent (fid1 fid2 : String) (room : Room)
    (pendingId : String) (c1 c2 : Option String) :
    resolvePendingReaction fid2
        (resolvePendingReaction fid1 room pendingId c1) pendingId c2 =
      resolvePendingReaction fid1 room pendingId c1 := by
  have key : ∀ (r : Room), r.pendingReaction = none →
      resolvePendingReaction fid2 r pendingId c2 = r := by
    intro r hr
    unfold resolvePendingReaction
    rw [hr]
  rcases hpr : room.pendingReaction with _ | pending
  · rw [show resolvePendingReaction fid1 room pendingId c1 = room by
      unfold resolvePendingReaction; rw [hpr]]
    exact key room hpr
  · by_cases hid : pending.id = pendingId
    · have hstep : resolvePendingReaction fid1 room pendingId c1 =
          (match c1 with
            | some _ => { room with pendingReaction := none }
            | none =>
              let room2 := applyResolvedAction fid1
                { room with pendingReaction := none } pending.payload
              if room2.pendingPayment.isNone then (checkWinner room2).2
              else room2) := by
        unfold resolvePendingReaction
        rw [hpr]
        simp [hid]
      rcases c1 with _ | who
      · have hnone :
            (applyResolvedAction fid1 { room with pendingReaction := none }
              pending.payload).pendingReaction = none := by
          rw [applyResolvedAction_pendingReaction]
        rw [hstep]
        simp only []
        split
        · exact key _ (checkWinner_pendingReaction_none _ hnone)
        · exact key _ hnone
      · rw [hstep]
        exact key _ rfl
    · have hstep : resolvePendingReaction fid1 room pendingId c1 = room := by
        unfold resolvePendingReaction
        rw [hpr]
        simp [hid]
      rw [hstep]
      unfold resolvePendingReaction
      rw [hpr]
      simp [hid]

theorem setSize_pos (color : String) : 0 < getSetSize color := by
  simp only [getSetSize, SET_REQUIREMENTS, List.lookup]
  repeat' split
  all_goals decide

theorem mem_of_lookup_eq_some {β : Type} (l : List (String × β)) (k : String)
    (v : β) (h : List.lookup k l = some v) : (k, v) ∈ l := by
  obtain ⟨l1, l2, rfl, -⟩ := List.lookup_eq_some_iff.mp h
  simp

theorem lookup_eq_some_of_mem_nodup {β : Type} (l : List (String × β))
    (k : String) (v : β) (hmem : (k, v) ∈ l)
    (hnd : (l.map Prod.fst).Nodup) : List.lookup k l = some v := by
  induction l with
  | nil => simp at hmem
  | cons e rest ih =>
    obtain ⟨k', v'⟩ := e
    simp only [List.map_cons] at hnd
    have hnd' := List.nodup_cons.mp hnd
    rw [List.lookup_cons]
    rcases List.mem_cons.mp hmem with heq | hmem'
    · cases heq
      simp
    · have hk : k ∈ rest.map Prod.fst :=
        List.mem_map.mpr ⟨(k, v), hmem', rfl⟩
      have hne : (k == k') = false := by
        rw [beq_eq_false_iff_ne]
        intro hkk
        subst hkk
        exact hnd'.1 hk
      simp only [hne]
      exact ih hmem' hnd'.2

theorem exists_three_of_nodup {α : Type} (l : List α) (hnd : l.Nodup)
    (h3 : 3 ≤ l.length) :
    ∃ a b c, a ∈ l ∧ b ∈ l ∧ c ∈ l ∧ a ≠ b ∧ a ≠ c ∧ b ≠ c := by
  match l, hnd, h3 with
  | a :: b :: c :: rest, hnd, _ =>
    have h1 := List.nodup_cons.mp hnd
    have h2 := List.nodup_cons.mp h1.2
    refine ⟨a, b, c, by simp, by simp, by simp, ?_, ?_, ?_⟩
    · intro h; exact h1.1 (h ▸ List.mem_cons_self _ _)
    · intro h
      exact h1.1 (h ▸ List.mem_cons_of_mem _ (List.mem_cons_self _ _))
    · intro h; exact h2.1 (h ▸ List.mem_cons_self _ _)

theorem checkWinner_fst (room : Room) :
    (checkWinner room).1 = room.players.find? hasWon := by
  unfold checkWinner
  split
  · next heq => rw [heq]
  · next heq => rw [heq]

/-- C8: a player satisfies the win predicate iff they hold at least three
distinct colors each meeting its full-set size, and `checkWinner` declares a
winner iff some player in the room satisfies it. -/
theorem c8_hasWon_iff (p : Player) (room : Room)
    (hkeys : (p.properties.map Prod.fst).Nodup) :
    (hasWon p = true ↔
      ∃ c1 c2 c3 : String, c1 ≠ c2 ∧ c1 ≠ c3 ∧ c2 ≠ c3 ∧
        getSetSize c1 ≤ (propGet p.properties c1).length ∧
        getSetSize c2 ≤ (propGet p.properties c2).length ∧
        getSetSize c3 ≤ (propGet p.properties c3).length) ∧
    ((checkWinner room).1.isSome ↔ ∃ q ∈ room.players, hasWon q = true) := by
  have hLnd : (fullSetColors p.properties).Nodup := by
    unfold fullSetColors
    exact hkeys.sublist (List.Sublist.map Prod.fst (List.filter_sublist _))
  have hfull : ∀ c, c ∈ fullSetColors p.properties ↔
      getSetSize c ≤ (propGet p.properties c).length := by
    intro c
    constructor
    · intro hc
      obtain ⟨e, he, hec⟩ := List.mem_map.mp hc
      have hef := List.mem_filter.mp he
      obtain ⟨k, v⟩ := e
      cases hec
      have hlk : List.lookup k p.properties = some v :=
        lookup_eq_some_of_mem_nodup _ _ _ hef.1 hkeys
      have hpg : propGet p.properties k = v := by
        simp [propGet, hlk]
      rw [hpg]
      simpa [isFullSet] using hef.2
    · intro hc
      rcases hlk : List.lookup c p.properties with _ | v
      · exfalso
        have : propGet p.properties c = [] := by simp [propGet, hlk]
        rw [this] at hc
        simp only [List.length_nil, Nat.le_zero] at hc
        exact absurd hc (Nat.ne_of_gt (setSize_pos c))
      · have hpg : propGet p.properties c = v := by simp [propGet, hlk]
        have hmem : (c, v) ∈ p.properties := mem_of_lookup_eq_some _ _ _ hlk
        refine List.mem_map.mpr ⟨(c, v), List.mem_filter.mpr ⟨hmem, ?_⟩, rfl⟩
        rw [hpg] at hc
        simpa [isFullSet] using hc
  constructor
  · constructor
    · intro hw
      have h3 : 3 ≤ (fullSetColors p.properties).length := by
        have := of_decide_eq_true hw
        rwa [List.dedup_eq_self.mpr hLnd] at this
      obtain ⟨a, b, c, ha, hb, hc, hab, hac, hbc⟩ :=
        exists_three_of_nodup _ hLnd h3
      exact ⟨a, b, c, hab, hac, hbc, (hfull a).mp ha, (hfull b).mp hb,
        (hfull c).mp hc⟩
    · rintro ⟨c1, c2, c3, h12, h13, h23, hf1, hf2, hf3⟩
      have hm1 := (hfull c1).mpr hf1
      have hm2 := (hfull c2).mpr hf2
      have hm3 := (hfull c3).mpr hf3
      have hsub : ({c1, c2, c3} : Finset String) ⊆
          (fullSetColors p.properties).toFinset := by
        intro x hx
        simp only [Finset.mem_insert, Finset.mem_singleton] at hx
        rcases hx with rfl | rfl | rfl <;> simpa [List.mem_toFinset]
      have hcard : ({c1, c2, c3} : Finset String).card = 3 := by
        rw [Finset.card_insert_of_not_mem (by simp [h12, h13]),
          Finset.card_insert_of_not_mem (by simp [h23]),
          Finset.card_singleton]
      have h3 : 3 ≤ (fullSetColors p.properties).length := by
        calc 3 = ({c1, c2, c3} : Finset String).card := hcard.symm
          _ ≤ (fullSetColors p.properties).toFinset.card :=
              Finset.card_le_card hsub
          _ = (fullSetColors p.properties).length :=
              List.toFinset_card_of_nodup hLnd
      apply decide_eq_true
      rwa [List.dedup_eq_self.mpr hLnd]
  · rw [checkWinner_fst]
    exact List.find?_isSome

/-- C8 witness: full brown (2), blue (2) and utility (2) sets and nothing
else make the player the declared winner. -/
theorem c8_witness :
    hasWon threeSetWinner = true ∧ (checkWinner roomWinner).1.isSome = true := by
  have h := c8_hasWon_iff threeSetWinner roomWinner (by decide)
  constructor
  · exact h.1.mpr ⟨"brown", "blue", "utility", by decide, by decide, by decide,
      by decide, by decide, by decide⟩
  · exact h.2.mpr ⟨threeSetWinner, by decide, by decide⟩

theorem jsUniqueAux_mem (l : List String) (seen : List String) (a : String) :
    a ∈ jsUniqueAux l seen ↔ a ∈ l ∧ a ∉ seen := by
  induction l generalizing seen with
  | nil => simp [jsUniqueAux]
  | cons x xs ih =>
    simp only [jsUniqueAux]
    split
    · next hx =>
      rw [ih]
      simp only [List.mem_cons]
      constructor
      · rintro ⟨h1, h2⟩
        exact ⟨Or.inr h1, h2⟩
      · rintro ⟨h1 | h1, h2⟩
        · exact absurd (h1 ▸ hx) h2
        · exact ⟨h1, h2⟩
    · next hx =>
      simp only [List.mem_cons, ih]
      constructor
      · rintro (rfl | ⟨h1, h2⟩)
        · exact ⟨Or.inl rfl, hx⟩
        · exact ⟨Or.inr h1, fun hs => h2 (Or.inr hs)⟩
      · rintro ⟨rfl | h1, h2⟩
        · exact Or.inl rfl
        · by_cases hax : a = x
          · exact Or.inl hax
          · refine Or.inr ⟨h1, fun hs => ?_⟩
            rcases hs with h | h
            · exact hax h
            · exact h2 h

theorem jsUniqueAux_idem (l seen : List String) :
    jsUniqueAux (jsUniqueAux l seen) seen = jsUniqueAux l seen := by
  induction l generalizing seen with
  | nil => rfl
  | cons x xs ih =>
    simp only [jsUniqueAux]
    split
    · exact ih seen
    · next hx =>
      simp only [jsUniqueAux, hx, if_false]
      rw [ih]

theorem jsUnique_idem (l : List String) :
    jsUnique (jsUnique l) = jsUnique l :=
  jsUniqueAux_idem l []

theorem jsUniqueAux_nodup (l seen : List String) :
    (jsUniqueAux l seen).Nodup := by
  induction l generalizing seen with
  | nil => simp [jsUniqueAux]
  | cons x xs ih =>
    simp only [jsUniqueAux]
    split
    · exact ih seen
    · rw [List.nodup_cons]
      refine ⟨fun hmem => ?_, ih (x :: seen)⟩
      exact ((jsUniqueAux_mem _ _ _).mp hmem).2 (List.mem_cons_self _ _)

theorem jsUnique_nodup (l : List String) : (jsUnique l).Nodup :=
  jsUniqueAux_nodup l []

theorem jsUnique_mem (l : List String) (a : String) :
    a ∈ jsUnique l ↔ a ∈ l := by
  simpa using jsUniqueAux_mem l [] a

theorem jsUnique_eq_nil_iff (l : List String) : jsUnique l = [] ↔ l = [] := by
  cases l with
  | nil => simp [jsUnique, jsUniqueAux]
  | cons x xs => simp [jsUnique, jsUniqueAux]

/-- C9: duplicate card ids in a payment selection are deduplicated before
validation and transfer, so validating or applying a selection is invariant
under deduplication; in particular a 3M card selected twice still totals 3M
and cannot cover a 6M debt the payer could otherwise afford. -/
theorem c9_duplicate_ids_ignored (payer receiver : Player) (amount : Nat)
    (ids : List String) :
    validateSelectedPayment payer amount ids =
        validateSelectedPayment payer amount (jsUnique ids) ∧
      applySelectedPayment payer receiver amount ids =
        applySelectedPayment payer receiver amount (jsUnique ids) ∧
      validateSelectedPayment richPayer 6 ["m3", "m3"] =
        .err "Selected cards total $3M. You must pay at least $6M." := by
  have hval : ∀ (q : Player) (a : Nat) (is : List String),
      validateSelectedPayment q a is =
        validateSelectedPayment q a (jsUnique is) := by
    intro q a is
    simp only [validateSelectedPayment, jsUnique_idem]
  refine ⟨hval payer amount ids, ?_, by decide⟩
  simp only [applySelectedPayment]
  rw [← hval payer amount ids]

theorem tableValue_eq_sum (p : Player) :
    tableValue p = ((tableCards p).map Card.value).sum := by
  simp [tableValue, tableCards]

theorem lookupLastById_id (l : List Card) (cid : String) (c : Card)
    (h : lookupLastById l cid = some c) : c.id = cid := by
  have := List.find?_some h
  simpa using this

theorem lookupLastById_mem (l : List Card) (cid : String) (c : Card)
    (h : lookupLastById l cid = some c) : c ∈ l := by
  have := List.mem_of_find?_eq_some h
  simpa using this

theorem lookupLastById_isSome_iff (l : List Card) (cid : String) :
    (lookupLastById l cid).isSome ↔ cid ∈ l.map Card.id := by
  unfold lookupLastById
  rw [List.find?_isSome]
  constructor
  · rintro ⟨c, hc, hid⟩
    exact List.mem_map.mpr ⟨c, List.mem_reverse.mp hc, of_decide_eq_true hid⟩
  · rintro hm
    obtain ⟨c, hc, hid⟩ := List.mem_map.mp hm
    exact ⟨c, List.mem_reverse.mpr hc, decide_eq_true hid⟩

theorem resolveIds_some_of_forall (f : String → Option Card)
    (l : List String) (h : ∀ i ∈ l, (f i).isSome) :
    resolveIds f l = some (l.filterMap f) := by
  induction l with
  | nil => rfl
  | cons i is ih =>
    obtain ⟨c, hc⟩ := Option.isSome_iff_exists.mp (h i (List.mem_cons_self _ _))
    rw [resolveIds, hc, ih fun j hj => h j (List.mem_cons_of_mem _ hj)]
    simp [List.filterMap_cons, hc]

theorem forall_isSome_of_resolveIds_some (f : String → Option Card)
    (l : List String) (cs : List Card) (h : resolveIds f l = some cs) :
    ∀ i ∈ l, (f i).isSome := by
  induction l generalizing cs with
  | nil => simp
  | cons i is ih =>
    rw [resolveIds] at h
    intro j hj
    rcases hf : f i with _ | c
    · rw [hf] at h; cases h
    · rw [hf] at h
      rcases List.mem_cons.mp hj with rfl | hj'
      · simp [hf]
      · rcases hrec : resolveIds f is with _ | cs'
        · rw [hrec] at h; cases h
        · exact ih cs' hrec j hj'

theorem filterMap_map_id (l : List String) (f : String → Option Card)
    (h : ∀ i ∈ l, ∃ c, f i = some c ∧ c.id = i) :
    ((l.filterMap f).map Card.id) = l := by
  induction l with
  | nil => rfl
  | cons i is ih =>
    obtain ⟨c, hc, hid⟩ := h i (List.mem_cons_self _ _)
    rw [List.filterMap_cons, hc]
    simp only [List.map_cons, hid]
    rw [ih fun j hj => h j (List.mem_cons_of_mem _ hj)]

theorem removeCardById_none (l : List Card) (cid : String)
    (h : (removeCardById l cid).1 = none) :
    (removeCardById l cid).2 = l ∧ cid ∉ l.map Card.id := by
  induction l with
  | nil => simp [removeCardById]
  | cons c rest ih =>
    by_cases hc : c.id = cid
    · rw [removeCardById, if_pos hc] at h
      cases h
    · rw [removeCardById, if_neg hc] at h ⊢
      simp only at h ⊢
      obtain ⟨h1, h2⟩ := ih h
      refine ⟨by rw [h1], ?_⟩
      simp only [List.map_cons, List.mem_cons]
      rintro (hm | hm)
      · exact hc hm.symm
      · exact h2 hm

theorem removeCardById_isSome_iff (l : List Card) (cid : String) :
    (removeCardById l cid).1.isSome ↔ cid ∈ l.map Card.id := by
  induction l with
  | nil => simp [removeCardById]
  | cons c rest ih =>
    rw [removeCardById]
    split
    · next heq => simp [heq]
    · next hne =>
      simp only [List.map_cons, List.mem_cons]
      rw [ih]
      constructor
      · exact Or.inr
      · rintro (hc | hc)
        · exact absurd hc.symm hne
        · exact hc

theorem removeCardById_some (l : List Card) (cid : String) (c : Card)
    (l' : List Card) (h : removeCardById l cid = (some c, l')) :
    c.id = cid ∧ l.Perm (c :: l') := by
  induction l generalizing l' with
  | nil => simp [removeCardById] at h
  | cons x rest ih =>
    rw [removeCardById] at h
    split at h
    · next heq =>
      obtain ⟨h1, h2⟩ := Prod.mk.injEq .. ▸ h
      cases h1
      cases h2
      exact ⟨heq, List.Perm.refl _⟩
    · next hne =>
      simp only [Prod.mk.injEq] at h
      obtain ⟨h1, h2⟩ := h
      rcases hrec : removeCardById rest cid with ⟨r1, r2⟩
      rw [hrec] at h1 h2
      simp only at h1 h2
      rcases r1 with _ | c0
      · cases h1
      · cases h1
        obtain ⟨hid, hperm⟩ := ih r2 hrec
        subst h2
        exact ⟨hid, (hperm.cons x).trans (List.Perm.swap c x r2)⟩

theorem removeCardById_append (xs ys : List Card) (cid : String) :
    removeCardById (xs ++ ys) cid =
      if cid ∈ xs.map Card.id then
        ((removeCardById xs cid).1, (removeCardById xs cid).2 ++ ys)
      else
        ((removeCardById ys cid).1, xs ++ (removeCardById ys cid).2) := by
  induction xs with
  | nil => simp [removeCardById]
  | cons x rest ih =>
    by_cases hx : x.id = cid
    · have hmem' : cid ∈ (x :: rest).map Card.id := by simp [hx]
      rw [if_pos hmem']
      simp [removeCardById, hx]
    · by_cases hmem : cid ∈ rest.map Card.id
      · have hmem' : cid ∈ (x :: rest).map Card.id := by simp [hmem]
        rw [if_pos hmem']
        simp [removeCardById, hx, ih, hmem]
      · have hmem' : cid ∉ (x :: rest).map Card.id := by
          simp only [List.map_cons, List.mem_cons]
          rintro (hm | hm)
          · exact hx hm.symm
          · exact hmem hm
        rw [if_neg hmem']
        simp [removeCardById, hx, ih, hmem]

theorem removeFromProps_flatten (props : Properties) (cid : String) :
    (removeFromProps props cid).1 =
        (removeCardById ((props.map Prod.snd).flatten) cid).1 ∧
      (((removeFromProps props cid).2.map Prod.snd).flatten) =
        (removeCardById ((props.map Prod.snd).flatten) cid).2 := by
  induction props with
  | nil => simp [removeFromProps, removeCardById]
  | cons e rest ih =>
    obtain ⟨color, cards⟩ := e
    rw [removeFromProps]
    simp only [List.map_cons, List.flatten_cons]
    rw [removeCardById_append]
    rcases hrc : removeCardById cards cid with ⟨r1, r2⟩
    rcases r1 with _ | c
    · have hno : cid ∉ cards.map Card.id := by
        rw [← removeCardById_isSome_iff, hrc]
        simp
      rw [if_neg hno]
      simp only [List.map_cons, List.flatten_cons]
      exact ⟨ih.1, by rw [ih.2]⟩
    · have hyes : cid ∈ cards.map Card.id := by
        rw [← removeCardById_isSome_iff, hrc]
        simp
      rw [if_pos hyes]
      simp

theorem removeCardFromTable_spec (p : Player) (cid : String) :
    (removeCardFromTable p cid).1 =
        (removeCardById (tableCards p) cid).1 ∧
      tableCards (removeCardFromTable p cid).2 =
        (removeCardById (tableCards p) cid).2 := by
  rw [removeCardFromTable]
  simp only [tableCards]
  rw [removeCardById_append]
  rcases hrb : removeCardById p.bank cid with ⟨r1, r2⟩
  rcases r1 with _ | c
  · have hno : cid ∉ p.bank.map Card.id := by
      rw [← removeCardById_isSome_iff, hrb]
      simp
    rw [if_neg hno]
    have h := removeFromProps_flatten p.properties cid
    refine ⟨h.1, ?_⟩
    simp only [tableCards]
    rw [h.2]
  · have hyes : cid ∈ p.bank.map Card.id := by
      rw [← removeCardById_isSome_iff, hrb]
      simp
    rw [if_pos hyes]
    simp [tableCards]

theorem removeSelected_isSome (cards : List Card) (payer : Player)
    (hnd : (cards.map Card.id).Nodup)
    (hmem : ∀ c ∈ cards, c.id ∈ (tableCards payer).map Card.id) :
    (removeSelected payer cards).2.isSome := by
  induction cards generalizing payer with
  | nil => simp [removeSelected]
  | cons c cs ih =>
    rw [removeSelected]
    have hspec := removeCardFromTable_spec payer c.id
    have hsome : (removeCardFromTable payer c.id).1.isSome := by
      rw [hspec.1, removeCardById_isSome_iff]
      exact hmem c (List.mem_cons_self _ _)
    rcases hrt : removeCardFromTable payer c.id with ⟨r1, payer'⟩
    rcases r1 with _ | removed
    · rw [hrt] at hsome; simp at hsome
    · rw [hrt] at hspec
      simp only at hspec
      have hrcb : removeCardById (tableCards payer) c.id =
          (some removed, tableCards payer') := by
        rw [hspec.1, hspec.2]
      obtain ⟨hid, hperm⟩ :=
        removeCardById_some (tableCards payer) c.id removed
          (tableCards payer') hrcb
      simp only [List.map_cons] at hnd
      have hnd' := List.nodup_cons.mp hnd
      have hmem' : ∀ c' ∈ cs, c'.id ∈ (tableCards payer').map Card.id := by
        intro c' hc'
        have h1 : c'.id ∈ (tableCards payer).map Card.id :=
          hmem c' (List.mem_cons_of_mem _ hc')
        have h2 : c'.id ∈ (removed :: tableCards payer').map Card.id :=
          (hperm.map Card.id).mem_iff.mp h1
        rw [List.map_cons] at h2
        rcases List.mem_cons.mp h2 with heq | hm
        · exfalso
          rw [hid] at heq
          exact hnd'.1 (heq ▸ List.mem_map.mpr ⟨c', hc', rfl⟩)
        · exact hm
      have hrec := ih payer' hnd'.2 hmem'
      rcases hsel : removeSelected payer' cs with ⟨payer'', rest?⟩
      rw [hsel] at hrec
      rcases rest? with _ | rest
      · simp at hrec
      · simp [hsel]

theorem validate_ok_cards (payer : Player) (amount : Nat)
    (ids : List String) (cards : List Card) (paid tt : Nat)
    (h : validateSelectedPayment payer amount ids = .ok cards paid tt) :
    (cards.map Card.id).Nodup ∧
      ∀ c ∈ cards, c.id ∈ (tableCards payer).map Card.id := by
  simp only [validateSelectedPayment] at h
  split at h
  · split at h
    · cases h
    · cases h
      exact ⟨List.nodup_nil, by simp⟩
  · split at h
    · cases h
    · next cs heq =>
      have hall := forall_isSome_of_resolveIds_some _ _ _ heq
      have hcs : cs = (jsUnique ids).filterMap
          (lookupLastById (tableCards payer)) := by
        have h2 := resolveIds_some_of_forall _ _ hall
        rw [heq] at h2
        exact Option.some.inj h2
      have hids : (cs.map Card.id) = jsUnique ids := by
        rw [hcs]
        refine filterMap_map_id _ _ fun i hi => ?_
        obtain ⟨c, hc⟩ := Option.isSome_iff_exists.mp (hall i hi)
        exact ⟨c, hc, lookupLastById_id _ _ _ hc⟩
      split at h
      · cases h
      · split at h
        · cases h
        · cases h
          refine ⟨hids ▸ jsUnique_nodup ids, fun c hc => ?_⟩
          rw [hcs] at hc
          obtain ⟨i, hi, hfi⟩ := List.mem_filterMap.mp hc
          exact List.mem_map.mpr ⟨c, lookupLastById_mem _ _ _ hfi, rfl⟩

/-- C1: corrected.  With `A > 0`, a selection whose ids all resolve on the
payer's table is accepted iff `(T ≥ A ∧ S ≥ A)` or `(0 < T < A ∧ S = T)`;
when the table total `T` is zero the selection is accepted iff it is empty
(a non-empty selection is rejected even if it covers the whole table).
Every rejected submission leaves payer and receiver unchanged. -/
theorem c1_payment_solvency (payer receiver : Player) (amount : Nat)
    (hA : 0 < amount) (ids : List String) :
    (payOk (validateSelectedPayment payer amount ids) = true ↔
      ((∀ i ∈ ids, (lookupLastById (tableCards payer) i).isSome) ∧
        ((amount ≤ tableValue payer ∧ amount ≤ selectedSum payer ids) ∨
          (0 < tableValue payer ∧ tableValue payer < amount ∧
            selectedSum payer ids = tableValue payer) ∨
          (tableValue payer = 0 ∧ ids = [])))) ∧
    (∀ p' r' m,
      applySelectedPayment payer receiver amount ids = (p', r', .err m) →
      p' = payer ∧ r' = receiver) := by
  have hTsum := tableValue_eq_sum payer
  constructor
  · simp only [validateSelectedPayment]
    split
    · next hT0 =>
      have hT0' : tableValue payer = 0 := by rw [hTsum]; exact hT0
      split
      · next hlen =>
        simp only [payOk, Bool.false_eq_true, false_iff]
        rintro ⟨-, (⟨h1, -⟩ | ⟨h1, -, -⟩ | ⟨-, h1⟩)⟩
        · omega
        · omega
        · subst h1
          simp [jsUnique, jsUniqueAux] at hlen
      · next hlen =>
        have hnil : ids = [] := by
          rcases hje : jsUnique ids with _ | ⟨x, xs⟩
          · exact (jsUnique_eq_nil_iff ids).mp hje
          · rw [hje] at hlen; simp at hlen
        simp only [payOk, true_iff]
        exact ⟨by simp [hnil], Or.inr (Or.inr ⟨hT0', hnil⟩)⟩
    · next hT0 =>
      have hTpos : 0 < tableValue payer := by
        rw [hTsum]; omega
      split
      · next heq =>
        simp only [payOk, Bool.false_eq_true, false_iff]
        rintro ⟨hall, -⟩
        have hall' : ∀ i ∈ jsUnique ids,
            ((lookupLastById (tableCards payer)) i).isSome := by
          intro i hi
          exact hall i ((jsUnique_mem ids i).mp hi)
        rw [resolveIds_some_of_forall _ _ hall'] at heq
        cases heq
      · next cs heq =>
        have hall := forall_isSome_of_resolveIds_some _ _ _ heq
        have hallids : ∀ i ∈ ids,
            (lookupLastById (tableCards payer) i).isSome := by
          intro i hi
          exact hall i ((jsUnique_mem ids i).mpr hi)
        have hcs : cs = (jsUnique ids).filterMap
            (lookupLastById (tableCards payer)) := by
          have h2 := resolveIds_some_of_forall _ _ hall
          rw [heq] at h2
          exact Option.some.inj h2
        have hpaid : (cs.map Card.value).sum = selectedSum payer ids := by
          rw [hcs]; rfl
        split
        · next hcond =>
          simp only [payOk, Bool.false_eq_true, false_iff]
          rintro ⟨-, (⟨h1, h2⟩ | ⟨-, h1, h2⟩ | ⟨h1, -⟩)⟩
          · rw [hpaid] at hcond
            rw [hTsum] at h1
            omega
          · rw [hpaid] at hcond
            rw [hTsum] at h1
            omega
          · omega
        · next hcond =>
          split
          · next hcond2 =>
            simp only [payOk, Bool.false_eq_true, false_iff]
            rw [hpaid] at hcond hcond2
            rintro ⟨-, (⟨h1, h2⟩ | ⟨-, h1, h2⟩ | ⟨h1, -⟩)⟩
            · rw [hTsum] at h1
              omega
            · rw [hTsum] at h1 h2
              omega
            · omega
          · next hcond2 =>
            simp only [payOk, true_iff]
            refine ⟨hallids, ?_⟩
            rw [hpaid] at hcond hcond2
            rw [hTsum, ← hpaid, hpaid]
            by_cases hc : amount ≤ ((tableCards payer).map Card.value).sum
            · left
              refine ⟨hc, by omega⟩
            · right; left
              refine ⟨by omega, by omega, by omega⟩
  · intro p' r' m h
    rw [applySelectedPayment] at h
    split at h
    · simp only [Prod.mk.injEq] at h
      exact ⟨h.1.symm, h.2.1.symm⟩
    · rename_i cards paid tt hval
      have hok := validate_ok_cards payer amount ids cards paid tt hval
      have hsome := removeSelected_isSome cards payer hok.1 hok.2
      split at h
      · rename_i payer'' heq
        rw [heq] at hsome
        simp at hsome
      · simp at h

/-- C1 counterexample: a payer whose whole table is a single zero-value card
selects exactly that card against a 1M debt.  The claim's condition holds
(`T = 0 < 1 = A`, the selection resolves, equals the entire table and sums
to `S = 0 = T`), yet the validator rejects the selection. -/
theorem c1_counterexample :
    tableValue zeroPayer = 0 ∧ tableValue zeroPayer < 1 ∧
    (lookupLastById (tableCards zeroPayer) "z0").isSome = true ∧
    selectedSum zeroPayer ["z0"] = tableValue zeroPayer ∧
    jsUnique ["z0"] = (tableCards zeroPayer).map Card.id ∧
    payOk (validateSelectedPayment zeroPayer 1 ["z0"]) = false := by
  decide

/-- C1 witness: with a 3M and 4M card on the table (`T = 7 ≥ 2`) a selection
of the 3M card (`S = 3 ≥ 2`) is accepted, and rejected applications leave
both parties unchanged. -/
theorem c1_witness :
    (0 : Nat) < 2 ∧
    payOk (validateSelectedPayment richPayer 2 ["m3"]) = true ∧
    (∀ p' r' m,
      applySelectedPayment richPayer emptyPlayer 2 ["m3"] = (p', r', .err m) →
      p' = richPayer ∧ r' = emptyPlayer) := by
  have h := c1_payment_solvency richPayer emptyPlayer 2 (by decide) ["m3"]
  refine ⟨by decide, ?_, h.2⟩
  exact h.1.mpr ⟨by decide, Or.inl ⟨by decide, by decide⟩⟩

theorem lookup_assocSet_self {α : Type} (l : List (String × α)) (k : String)
    (v : α) : List.lookup k (assocSet l k v) = some v := by
  induction l with
  | nil => simp [assocSet]
  | cons e rest ih =>
    obtain ⟨k', v'⟩ := e
    rw [assocSet]
    by_cases hk : k' = k
    · rw [if_pos hk]
      simp
    · rw [if_neg hk]
      rw [List.lookup_cons]
      have hne : (k == k') = false := by
        rw [beq_eq_false_iff_ne]
        exact fun h => hk h.symm
      simp only [hne]
      exact ih

/-- C4: corrected.  Playing Double The Rent multiplies the acting player's
pending rent multiplier by 2 (it does not set it to 2): the card is
discarded and a play is consumed, and the new multiplier is twice the old
one, so a second double-rent in the same turn yields 4. -/
theorem c4_double_rent_multiplies (sh : List Card → List Card) (fid : String)
    (room : Room) (actorId : String) (payload : PlayPayload)
    (player cur : Player) (handCard : Card) (hand' : List Card)
    (h1 : room.started = true) (h2 : room.winnerId = none)
    (h3 : room.pendingReaction = none) (h4 : room.pendingPayment = none)
    (h5 : getPlayer room actorId = some player)
    (h6 : getCurrentPlayer room = some cur) (h7 : cur.id = actorId)
    (h8 : pendingDrawBlocks room actorId = false)
    (h9 : room.cardsPlayedThisTurn < MAX_CARDS_PER_TURN)
    (h10 : removeCardById player.hand payload.cardId = (some handCard, hand'))
    (h11 : payload.mode = "action")
    (h12 : handCard.category = "action")
    (h13 : handCard.actionType = some "double_rent") :
    (playCard sh fid room actorId payload).2 = none ∧
    ((playCard sh fid room actorId payload).1.turnEffects.lookup actorId) =
      some ⟨((room.turnEffects.lookup actorId).getD ⟨1⟩).rentMultiplier * 2⟩ ∧
    (playCard sh fid room actorId payload).1.discard =
      room.discard ++ [handCard] ∧
    (playCard sh fid room actorId payload).1.cardsPlayedThisTurn =
      room.cardsPlayedThisTurn + 1 := by
  have hMax : ¬ (MAX_CARDS_PER_TURN ≤ room.cardsPlayedThisTurn) := by
    simp only [MAX_CARDS_PER_TURN] at h9 ⊢
    omega
  simp only [playCard, playCardAction, h1, h2, h3, h4, h5, h6, h7, h8, h10,
    h11, h12, h13, hMax, Option.isSome_none, Bool.false_eq_true,
    not_true_eq_false, or_self, if_false, ne_eq, not_false_eq_true,
    Option.isSome_some, if_true, ite_false, ite_true]
  simp [lookup_assocSet_self]
  exact ⟨rfl, rfl, rfl⟩

/-- C4 counterexample: with an already-active x2 multiplier, playing Double
The Rent leaves the multiplier at 4, not at the claimed 2. -/
theorem c4_counterexample :
    (playCard (fun l => l) "f" roomDR "p1" drPayload).2 = none ∧
    roomDR.turnEffects.lookup "p1" = some ⟨2⟩ ∧
    (playCard (fun l => l) "f" roomDR "p1" drPayload).1.turnEffects.lookup "p1"
      = some ⟨4⟩ ∧
    (some (⟨4⟩ : TurnEffects) ≠ some ⟨2⟩) := by
  decide

/-- C4 witness: the amended claim at the concrete room with prior
multiplier 2 gives 2 * 2 = 4, consuming a play and discarding the card. -/
theorem c4_witness :
    (playCard (fun l => l) "f" roomDR "p1" drPayload).2 = none ∧
    (playCard (fun l => l) "f" roomDR "p1" drPayload).1.turnEffects.lookup "p1"
      = some ⟨((roomDR.turnEffects.lookup "p1").getD ⟨1⟩).rentMultiplier * 2⟩ ∧
    (playCard (fun l => l) "f" roomDR "p1" drPayload).1.discard =
      roomDR.discard ++ [doubleRentCard] ∧
    (playCard (fun l => l) "f" roomDR "p1" drPayload).1.cardsPlayedThisTurn =
      roomDR.cardsPlayedThisTurn + 1 :=
  c4_double_rent_multiplies (fun l => l) "f" roomDR "p1" drPayload aliceDR
    aliceDR doubleRentCard [] (by decide) (by decide) (by decide) (by decide)
    (by decide) (by decide) (by decide) (by decide) (by decide) (by decide)
    (by decide) (by decide) (by decide)

/-- C3: a successful rent play charges the rules-computed base rent for the
acting player's chosen color group times the player's current rent
multiplier, resets the multiplier to 1, moves the rent card to the discard
pile immediately and consumes one play; the charge is carried by the queued
reaction payload. -/
theorem c3_rent_play_spec (sh : List Card → List Card) (fid : String)
    (room : Room) (actorId : String) (payload : PlayPayload)
    (player cur : Player) (handCard : Card) (hand' : List Card)
    (t c : String)
    (h1 : room.started = true) (h2 : room.winnerId = none)
    (h3 : room.pendingReaction = none) (h4 : room.pendingPayment = none)
    (h5 : getPlayer room actorId = some player)
    (h6 : getCurrentPlayer room = some cur) (h7 : cur.id = actorId)
    (h8 : pendingDrawBlocks room actorId = false)
    (h9 : room.cardsPlayedThisTurn < MAX_CARDS_PER_TURN)
    (h10 : removeCardById player.hand payload.cardId = (some handCard, hand'))
    (h11 : payload.mode = "action")
    (h12 : handCard.category = "rent")
    (h13 : payload.targetPlayerId = some t) (h14 : t ≠ actorId)
    (h15 : chooseFrom
        (if handCard.rentColors.head? = some "any" then PROPERTY_COLORS
          else handCard.rentColors) payload.rentColor = some c)
    (h16 : propGet player.properties c ≠ []) :
    (playCard sh fid room actorId payload).2 = none ∧
    (playCard sh fid room actorId payload).1.pendingReaction = some
      { id := fid
        sourcePlayerId := actorId
        targetPlayerIds := [t]
        actionType := "rent"
        payload :=
          { type := "rent"
            actorId := actorId
            targetPlayerId := some t
            amount := some (calculateRent (propGet player.properties c) c *
              ((room.turnEffects.lookup actorId).getD ⟨1⟩).rentMultiplier)
            rentColor := some c } } ∧
    ((playCard sh fid room actorId payload).1.turnEffects.lookup actorId) =
      some ⟨1⟩ ∧
    (playCard sh fid room actorId payload).1.discard =
      room.discard ++ [handCard] ∧
    (playCard sh fid room actorId payload).1.cardsPlayedThisTurn =
      room.cardsPlayedThisTurn + 1 := by
  have hMax : ¬ (MAX_CARDS_PER_TURN ≤ room.cardsPlayedThisTurn) := by
    simp only [MAX_CARDS_PER_TURN] at h9 ⊢
    omega
  have hTgt : ¬ (payload.targetPlayerId = none ∨
      payload.targetPlayerId = some actorId) := by
    rw [h13]
    rintro (hc | hc)
    · cases hc
    · exact h14 (Option.some.inj hc)
  have hSet : ¬ (propGet player.properties c).isEmpty := by
    rw [List.isEmpty_iff]
    exact h16
  simp only [playCard, playCardRent, h1, h2, h3, h4, h5, h6, h7, h8, h10,
    h11, h12, h13, h15, hMax, hTgt, hSet, Option.isSome_none,
    Bool.false_eq_true, not_true_eq_false, or_self, if_false, ne_eq,
    not_false_eq_true, Option.isSome_some, if_true, ite_false, ite_true]
  simp [lookup_assocSet_self, queuePendingReaction, h14]
  exact ⟨Or.inl rfl, rfl, rfl⟩

/-- C3 witness: two green cards (schedule `[2, 4, 7]`, base rent 4) with an
active x2 multiplier charge exactly 8, with the multiplier reset, the card
discarded and the play consumed. -/
theorem c3_witness :
    (playCard (fun l => l) "rx" roomRent "p1" rentPayload).2 = none ∧
    (playCard (fun l => l) "rx" roomRent "p1" rentPayload).1.pendingReaction
      = some
      { id := "rx"
        sourcePlayerId := "p1"
        targetPlayerIds := ["p2"]
        actionType := "rent"
        payload :=
          { type := "rent"
            actorId := "p1"
            targetPlayerId := some "p2"
            amount := some 8
            rentColor := some "green" } } ∧
    ((playCard (fun l => l) "rx" roomRent "p1" rentPayload).1.turnEffects.lookup
      "p1") = some ⟨1⟩ ∧
    (playCard (fun l => l) "rx" roomRent "p1" rentPayload).1.discard =
      roomRent.discard ++ [greenRentCard] ∧
    (playCard (fun l => l) "rx" roomRent "p1" rentPayload).1.cardsPlayedThisTurn
      = roomRent.cardsPlayedThisTurn + 1 := by
  have h := c3_rent_play_spec (fun l => l) "rx" roomRent "p1" rentPayload
    aliceRent aliceRent greenRentCard [] "p2" "green" (by decide) (by decide)
    (by decide) (by decide) (by decide) (by decide) (by decide) (by decide)
    (by decide) (by decide) (by decide) (by decide) (by decide) (by decide)
    (by decide) (by decide)
  refine ⟨h.1, ?_, h.2.2.1, h.2.2.2.1, h.2.2.2.2⟩
  rw [h.2.1]
  decide

theorem checkWinner_frame (room : Room) :
    (checkWinner room).2.deck = room.deck ∧
      (checkWinner room).2.discard = room.discard ∧
      (checkWinner room).2.cardsPlayedThisTurn = room.cardsPlayedThisTurn ∧
      (checkWinner room).2.currentPlayerIndex = room.currentPlayerIndex ∧
      (checkWinner room).2.turnEffects = room.turnEffects := by
  unfold checkWinner
  split <;> exact ⟨rfl, rfl, rfl, rfl, rfl⟩

/-- C10: corrected.  A move-wildcard intent is accepted from any player in
the room (not only the current-turn player) while the game is active and
nothing is pending, provided the card is a wildcard in the requester's own
groups and the new color is among its affinities; the card moves between
that player's groups with `assignedColor` updated and no play is consumed —
but the standard winner check then runs, so winnerId/started (and the
pending turn draw) can change when the move completes a third full set. -/
theorem c10_moveWildcard_spec (room : Room) (actorId cardId newColor : String)
    (player : Player) (card : Card) (props : Properties)
    (h1 : room.started = true) (h2 : room.pendingReaction = none)
    (h3 : room.pendingPayment = none)
    (h4 : getPlayer room actorId = some player)
    (h5 : moveWildcardScan cardId newColor player.properties =
      .moved card props) :
    (moveWildcard room actorId cardId newColor).2 = none ∧
    (moveWildcard room actorId cardId newColor).1 =
      (checkWinner (updatePlayer room actorId fun p =>
        addPropertyCard { p with properties := props } card newColor)).2 ∧
    (moveWildcard room actorId cardId newColor).1.cardsPlayedThisTurn =
      room.cardsPlayedThisTurn ∧
    (moveWildcard room actorId cardId newColor).1.deck = room.deck ∧
    (moveWildcard room actorId cardId newColor).1.discard = room.discard ∧
    (moveWildcard room actorId cardId newColor).1.currentPlayerIndex =
      room.currentPlayerIndex ∧
    (moveWildcard room actorId cardId newColor).1.turnEffects =
      room.turnEffects := by
  have hmw : moveWildcard room actorId cardId newColor =
      ((checkWinner (updatePlayer room actorId fun p =>
        addPropertyCard { p with properties := props } card newColor)).2,
        none) := by
    simp only [moveWildcard, h1, h2, h3, h4, h5, Option.isSome_none,
      Bool.false_eq_true, not_true_eq_false, or_self, if_false, if_true,
      ite_false, ite_true]
  rw [hmw]
  have hframe := checkWinner_frame (updatePlayer room actorId fun p =>
    addPropertyCard { p with properties := props } card newColor)
  refine ⟨rfl, rfl, ?_, ?_, ?_, ?_, ?_⟩
  · rw [hframe.2.2.1]; rfl
  · rw [hframe.1]; rfl
  · rw [hframe.2.1]; rfl
  · rw [hframe.2.2.2.1]; rfl
  · rw [hframe.2.2.2.2]; rfl

/-- C10 counterexample: Bob (not the current player) moves his any-color
wildcard from green to utility, completing a third full set: the move is
accepted, and the winner check flips `winnerId` and ends the game — the
claim's "all other room fields are unchanged" fails. -/
theorem c10_counterexample :
    (moveWildcard roomWild "p2" "w1" "utility").2 = none ∧
    roomWild.winnerId = none ∧ roomWild.started = true ∧
    (moveWildcard roomWild "p2" "w1" "utility").1.winnerId = some "p2" ∧
    (moveWildcard roomWild "p2" "w1" "utility").1.started = false := by
  decide

/-- C10 witness: a non-winning wildcard move by a non-current player is
accepted and leaves the play counter, piles and turn index unchanged. -/
theorem c10_witness :
    (moveWildcard roomWildNoWin "p2" "w1" "blue").2 = none ∧
    (moveWildcard roomWildNoWin "p2" "w1" "blue").1.cardsPlayedThisTurn =
      roomWildNoWin.cardsPlayedThisTurn ∧
    (moveWildcard roomWildNoWin "p2" "w1" "blue").1.deck =
      roomWildNoWin.deck ∧
    (moveWildcard roomWildNoWin "p2" "w1" "blue").1.currentPlayerIndex =
      roomWildNoWin.currentPlayerIndex := by
  have h := c10_moveWildcard_spec roomWildNoWin "p2" "w1" "blue" bobNoWin
    wildAny [("brown", [mkProp "b1" "brown"]), ("green", [])]
    (by decide) (by decide) (by decide) (by decide) (by decide)
  exact ⟨h.1, h.2.2.1, h.2.2.2.1, h.2.2.2.2.2.1⟩

theorem errorFrame_refl (room : Room) : errorFrame room room := by
  refine ⟨rfl, rfl, rfl, rfl, rfl, rfl, rfl, rfl, rfl, rfl, ?_⟩
  rw [List.forall₂_same]
  exact fun x _ => ⟨rfl, rfl, rfl, rfl, List.Perm.refl _⟩

theorem updateFirstPlayer_comp (l : List Player) (pid : String)
    (f g : Player → Player) (hf : ∀ p, (f p).id = p.id) :
    updateFirstPlayer (updateFirstPlayer l pid f) pid g =
      updateFirstPlayer l pid (fun p => g (f p)) := by
  induction l with
  | nil => rfl
  | cons p rest ih =>
    rw [updateFirstPlayer]
    by_cases hp : p.id = pid
    · rw [if_pos hp, updateFirstPlayer, if_pos (by rw [hf p]; exact hp),
        updateFirstPlayer, if_pos hp]
    · rw [if_neg hp, updateFirstPlayer, if_neg hp, updateFirstPlayer,
        if_neg hp, ih]

theorem forall₂_updateFirst_hand (l : List Player) (pid : String)
    (player : Player) (hand'' : List Card)
    (hfind : l.find? (fun p => p.id = pid) = some player)
    (hperm : player.hand.Perm hand'') :
    List.Forall₂
      (fun p q => p.id = q.id ∧ p.name = q.name ∧ p.bank = q.bank ∧
        p.properties = q.properties ∧ p.hand.Perm q.hand)
      l (updateFirstPlayer l pid (fun p => { p with hand := hand'' })) := by
  induction l with
  | nil => simp at hfind
  | cons p rest ih =>
    rw [updateFirstPlayer]
    by_cases hp : p.id = pid
    · rw [if_pos hp]
      have hpp : player = p := by
        rw [List.find?_cons_of_pos _ (by simpa using hp)] at hfind
        exact (Option.some.inj hfind).symm
      subst hpp
      refine List.Forall₂.cons ⟨rfl, rfl, rfl, rfl, hperm⟩ ?_
      rw [List.forall₂_same]
      exact fun x _ => ⟨rfl, rfl, rfl, rfl, List.Perm.refl _⟩
    · rw [if_neg hp]
      rw [List.find?_cons_of_neg _ (by simpa using hp)] at hfind
      exact List.Forall₂.cons ⟨rfl, rfl, rfl, rfl, List.Perm.refl _⟩
        (ih hfind)

theorem errorFrame_giveBack (room : Room) (pid cid : String)
    (player : Player) (c : Card) (hand' : List Card)
    (h5 : getPlayer room pid = some player)
    (h10 : removeCardById player.hand cid = (some c, hand')) :
    errorFrame room
      (giveBack (updatePlayer room pid fun p => { p with hand := hand' })
        pid c) := by
  have hcomp :
      giveBack (updatePlayer room pid fun p => { p with hand := hand' })
        pid c =
      { room with
        players :=
          updateFirstPlayer room.players pid
            (fun p => { p with hand := hand' ++ [c] }) } := by
    simp only [giveBack, updatePlayer]
    rw [updateFirstPlayer_comp room.players pid
      (fun p => { p with hand := hand' })
      (fun p => { p with hand := p.hand ++ [c] }) (fun p => rfl)]
  rw [hcomp]
  refine ⟨rfl, rfl, rfl, rfl, rfl, rfl, rfl, rfl, rfl, rfl, ?_⟩
  have hperm : player.hand.Perm (hand' ++ [c]) := by
    have h1 := (removeCardById_some player.hand cid c hand' h10).2
    exact h1.trans (List.perm_append_singleton c hand').symm
  exact forall₂_updateFirst_hand room.players pid player (hand' ++ [c])
    h5 hperm

theorem playCardBank_snd (room : Room) (actorId : String) (handCard : Card) :
    (playCardBank room actorId handCard).2 = none := rfl

set_option maxHeartbeats 2000000 in
theorem playCardProperty_err (room : Room) (actorId : String)
    (payload : PlayPayload) (player : Player) (handCard : Card) (r' : Room)
    (msg : String)
    (h : playCardProperty room actorId payload player handCard =
      (r', some msg)) :
    r' = giveBack room actorId handCard := by
  unfold playCardProperty at h
  repeat' ((try dsimp only at h); split at h)
  all_goals
    first
      | (injection h with h1 h2; exact Option.noConfusion h2)
      | (injection h with h1 h2; exact h1.symm)

set_option maxHeartbeats 2000000 in
theorem playCardAction_err (sh : List Card → List Card) (fid : String)
    (room : Room) (actorId : String) (payload : PlayPayload)
    (player : Player) (handCard : Card) (r' : Room) (msg : String)
    (h : playCardAction sh fid room actorId payload player handCard =
      (r', some msg)) :
    r' = giveBack room actorId handCard := by
  unfold playCardAction at h
  repeat' ((try dsimp only at h); split at h)
  all_goals
    first
      | (injection h with h1 h2; exact Option.noConfusion h2)
      | (injection h with h1 h2; exact h1.symm)

set_option maxHeartbeats 2000000 in
theorem playCardRent_err (fid : String) (room : Room) (actorId : String)
    (payload : PlayPayload) (player : Player) (handCard : Card) (r' : Room)
    (msg : String)
    (h : playCardRent fid room actorId payload player handCard =
      (r', some msg)) :
    r' = giveBack room actorId handCard := by
  unfold playCardRent at h
  repeat' ((try dsimp only at h); split at h)
  all_goals
    first
      | (injection h with h1 h2; exact Option.noConfusion h2)
      | (injection h with h1 h2; exact h1.symm)

set_option maxHeartbeats 1000000 in
/-- C2: every play-card intent that fails validation leaves the room frame
intact: no field changes, no play is consumed, and every player's hand is
preserved up to reordering (the inspected card is returned to the end of
the author's hand); the validation error is reported only to the author. -/
theorem c2_playCard_error_frame (sh : List Card → List Card) (fid : String)
    (room : Room) (actorId : String) (payload : PlayPayload) (r' : Room)
    (msg : String)
    (h : playCard sh fid room actorId payload = (r', some msg)) :
    errorFrame room r' := by
  unfold playCard at h
  repeat' split at h
  all_goals
    first
      | (injection h with h1 h2; exact Option.noConfusion h2)
      | (injection h with h1 h2; subst h1;
         first
           | exact errorFrame_refl _
           | exact errorFrame_giveBack _ _ _ _ _ _ (by assumption)
               (by assumption))
      | (rw [playCardProperty_err _ _ _ _ _ _ _ h]
         exact errorFrame_giveBack _ _ _ _ _ _ (by assumption)
           (by assumption))
      | (rw [playCardAction_err _ _ _ _ _ _ _ _ _ h]
         exact errorFrame_giveBack _ _ _ _ _ _ (by assumption)
           (by assumption))
      | (rw [playCardRent_err _ _ _ _ _ _ _ _ h]
         exact errorFrame_giveBack _ _ _ _ _ _ (by assumption)
           (by assumption))

/-- C2 witness: an unknown play mode is rejected with the frame intact. -/
theorem c2_witness :
    errorFrame roomDR
      (playCard (fun l => l) "f" roomDR "p1"
        { cardId := "dr2", mode := "zzz" }).1 :=
  c2_playCard_error_frame (fun l => l) "f" roomDR "p1"
    { cardId := "dr2", mode := "zzz" }
    (playCard (fun l => l) "f" roomDR "p1" { cardId := "dr2", mode := "zzz" }).1
    "Unknown play mode." (by decide)

end MD
